import Mathlib

/-!
Survey quota and completion log (`src/lib/surveys.js`).

A shallow embedding of the storage layer of the survey application and of the
rule that decides whether the current user may start a survey today.

Modelling conventions.

* `localStorage` is a record with one field per key the module uses, plus a
  ghost list `writes` of the keys passed to `setItem`, most recent first.
* A stored value is the JSON document it parses to.  A slot is `absent`
  (`getItem` yields `null` or the empty string, both falsy), `unparseable`
  (`JSON.parse` throws), `null` (the document `null`), a `value` of the shape
  the module itself writes, or `other` (any other document: an array, a
  number, a string, a boolean, an object of another shape).
* A JSON object is the list of its own properties in insertion order.  A
  property read `o[k]` returns the own property when there is one and
  otherwise follows the prototype chain: the names of `Object.prototype`
  read as a built-in function or object.
* The built-in objects are not part of the state.  An evaluation that reads
  or writes a property of a built-in object, or that reads a property of an
  `other` document, ends in the outcome `outside`: the embedding says
  nothing about what the code does there.
* Numbers are integers; arithmetic is exact (counts stay far below `2^53`).
* The clock and the identifier generator are read from an explicit `Env`;
  one operation sees one reading.
* `setItem` always succeeds.
-/

namespace Surveys

/-! ## JSON objects -/

/-- A JSON object: its own properties, in insertion order. -/
abbrev Obj (α : Type) := List (String × α)

/-- The property names every object inherits from `Object.prototype`. -/
def objectProtoKeys : List String :=
  ["constructor", "hasOwnProperty", "isPrototypeOf", "propertyIsEnumerable", "toLocaleString",
    "toString", "valueOf", "__proto__", "__defineGetter__", "__defineSetter__",
    "__lookupGetter__", "__lookupSetter__"]

/-- What a property read `o[k]` on a plain object yields: the own property, a built-in
inherited from `Object.prototype` (truthy), or `undefined`. -/
inductive Read (α : Type) where
  | own (v : α)
  | inherited
  | undefined
  deriving DecidableEq, Repr

namespace Obj

/-- The own property `k` of `o`, `none` when `o` has no own property of that name. -/
def get {α : Type} (o : Obj α) (k : String) : Option α :=
  match o with
  | [] => none
  | (k', v) :: rest => if k' = k then some v else get rest k

/-- Property read `o[k]`: the own property first, then the prototype chain. -/
def read {α : Type} (o : Obj α) (k : String) : Read α :=
  match o.get k with
  | some v => Read.own v
  | none => if k ∈ objectProtoKeys then Read.inherited else Read.undefined

/-- Definition of the own property `k`: an existing key keeps its position, a new key is
appended. -/
def set {α : Type} (o : Obj α) (k : String) (v : α) : Obj α :=
  match o with
  | [] => [(k, v)]
  | (k', v') :: rest => if k' = k then (k, v) :: rest else (k', v') :: set rest k v

/-- Property write `o[k] = v`. Without an own property `__proto__` the write goes to the
setter inherited from `Object.prototype`, which defines no own property; every other write
defines or overwrites the own property. -/
def assign {α : Type} (o : Obj α) (k : String) (v : α) : Obj α :=
  match o.get k with
  | some _ => o.set k v
  | none => if k = "__proto__" then o else o.set k v

/-- Property removal `delete o[k]`. -/
def del {α : Type} (o : Obj α) (k : String) : Obj α :=
  o.filter (fun p => p.1 != k)

/-- The own keys, `Object.keys(o)`. -/
def keys {α : Type} (o : Obj α) : List String :=
  o.map Prod.fst

end Obj

/-! ## Data model -/

/-- The answers handed to `markCompleted`: question identifier to response. -/
abbrev Answers := List (String × String)

/-- The user record kept under `USER_KEY`. A missing `tier` property is `none`. -/
structure User where
  id : String
  name : String
  email : String
  plan : String
  tier : Option String
  balance : Int
  createdAt : Nat
  deriving DecidableEq, Repr

/-- The argument of `setUser`: the properties present in the patch object. -/
structure UserPatch where
  id : Option String
  name : Option String
  email : Option String
  plan : Option String
  tier : Option String
  balance : Option Int
  createdAt : Option Nat
  deriving DecidableEq, Repr

/-- What the profile slot holds. `notUser` is a document that parses but has no `id`
property (`null`, a number, an object without `id`); a `record` may carry the empty
identifier, which is falsy. -/
inductive UserSlot where
  | absent
  | unparseable
  | notUser
  | record (u : User)
  deriving DecidableEq, Repr

/-- A slot whose document, when it has the shape the module writes, is of type `α`. -/
inductive Slot (α : Type) where
  | absent
  | unparseable
  | null
  | other
  | value (v : α)
  deriving DecidableEq, Repr

/-- One completion: `{ answers, completedAt }`. -/
structure CompletionRecord where
  answers : Answers
  completedAt : String
  deriving DecidableEq, Repr

/-- The completions document: userId to surveyId to record. -/
abbrev Completions := Obj (Obj CompletionRecord)

/-- The daily-counter document: userId to date to count. -/
abbrev Daily := Obj (Obj Int)

/-- The four storage keys of the module and the ghost write log. -/
structure Storage where
  user : UserSlot
  completions : Slot Completions
  daily : Slot Daily
  version : Option String
  writes : List String
  deriving DecidableEq, Repr

/-- One reading of the environment: `Date.now()`, `new Date().toISOString()`, its date
part `toISOString().split("T")[0]`, and `crypto?.randomUUID?.()` (`none` when unavailable).
The date part of an ISO timestamp has the form `YYYY-MM-DD`: it contains a hyphen. -/
structure Env where
  now : Nat
  iso : String
  today : String
  uuid : Option String
  dashed : '-' ∈ today.data

/-- A thrown value: a `TypeError` raised by the engine, or `new Error(msg)`. -/
inductive JsError where
  | typeError
  | error (msg : String)
  deriving DecidableEq, Repr

/-- What a function call ends in: it returns a value, it throws, or the evaluation leaves
what the embedding covers. `returns` and `throws` carry the storage at that moment. -/
inductive Outcome (α : Type) where
  | returns (a : α) (st : Storage)
  | throws (e : JsError) (st : Storage)
  | outside
  deriving DecidableEq, Repr

/-- The storage an outcome leaves, when the embedding follows the evaluation. -/
def Outcome.storage {α : Type} (o : Outcome α) : Option Storage :=
  match o with
  | Outcome.returns _ st => some st
  | Outcome.throws _ st => some st
  | Outcome.outside => none

/-- The value an outcome returns. -/
def Outcome.value {α : Type} (o : Outcome α) : Option α :=
  match o with
  | Outcome.returns a _ => some a
  | _ => none

def SURVEYS_VERSION_KEY : String := "surveys:version"
def DAILY_COMPLETIONS_KEY : String := "surveys.dailyCompletions.v1"
def USER_KEY : String := "app:user"
def COMPLETIONS_KEY : String := "surveys.completions.v1"

def PACKAGE_LIMITS : Obj Int :=
  [("free", 1), ("silver", 5), ("gold", 10), ("platinum", 20)]

/-- The value of `PACKAGE_LIMITS[user.tier] || 0`: a number, or the built-in inherited under
the name `key`. -/
inductive Limit where
  | num (n : Int)
  | builtin (key : String)
  deriving DecidableEq, Repr

/-- The expression `PACKAGE_LIMITS[user.tier] || 0`. A missing tier reads the key
`undefined`, which `PACKAGE_LIMITS` neither has nor inherits. -/
def limitOf (tier : Option String) : Limit :=
  match tier with
  | none => Limit.num 0
  | some t =>
    match PACKAGE_LIMITS.read t with
    | Read.own n => Limit.num (if n = 0 then 0 else n)
    | Read.inherited => Limit.builtin t
    | Read.undefined => Limit.num 0

/-- The text `${limit}` of a limit: the decimal numeral of a number; for a built-in, the text
V8 prints for the native function inherited under `key`, or for `Object.prototype` itself
under `__proto__`. -/
def limitText (limit : Limit) : String :=
  match limit with
  | Limit.num n => toString n
  | Limit.builtin key =>
    if key = "__proto__" then "[object Object]"
    else if key = "constructor" then "function Object() \x7b [native code] \x7d"
    else "function " ++ key ++ "() \x7b [native code] \x7d"

/-- A JavaScript number: an integer or `NaN`. -/
inductive JsNumber where
  | fin (n : Int)
  | nan
  deriving DecidableEq, Repr

/-- The expression `Math.max(0, limit - count)`; a built-in converts to `NaN`. -/
def maxZeroMinus (limit : Limit) (count : Int) : JsNumber :=
  match limit with
  | Limit.num n => JsNumber.fin (max 0 (n - count))
  | Limit.builtin _ => JsNumber.nan

/-- The expression `count < limit`; a built-in converts to `NaN`, and the comparison is false. -/
def lessThan (count : Int) (limit : Limit) : Bool :=
  match limit with
  | Limit.num n => decide (count < n)
  | Limit.builtin _ => false

/-! ## Profile store -/

/-- The identifier `crypto?.randomUUID?.() || String(Date.now())`. -/
def freshId (env : Env) : String :=
  match env.uuid with
  | some s => if s = "" then toString env.now else s
  | none => toString env.now

/-- The default record built by `getUser`. -/
def freshUser (env : Env) : User :=
  { id := freshId env
    name := "Guest"
    email := ""
    plan := "free"
    tier := some "free"
    balance := 0
    createdAt := env.now }

/-- The call `localStorage.setItem(USER_KEY, JSON.stringify(u))`. -/
def writeUser (st : Storage) (u : User) : Storage :=
  { st with user := UserSlot.record u, writes := USER_KEY :: st.writes }

def getUser (env : Env) (st : Storage) : User × Storage :=
  match st.user with
  | UserSlot.record u =>
    if u.id = "" then (freshUser env, writeUser st (freshUser env)) else (u, st)
  | _ => (freshUser env, writeUser st (freshUser env))

/-- The spread `{ ...u, ...patch }`. -/
def mergeUser (u : User) (patch : UserPatch) : User :=
  { id := patch.id.getD u.id
    name := patch.name.getD u.name
    email := patch.email.getD u.email
    plan := patch.plan.getD u.plan
    tier := match patch.tier with
      | some t => some t
      | none => u.tier
    balance := patch.balance.getD u.balance
    createdAt := patch.createdAt.getD u.createdAt }

def setUser (env : Env) (st : Storage) (patch : UserPatch) : User × Storage :=
  let r := getUser env st
  let u := mergeUser r.1 patch
  (u, writeUser r.2 u)

/-! ## Completion log -/

/-- What `JSON.parse` hands back for a document: `null`, an object of the module's shape, or
anything else. -/
inductive Parsed (α : Type) where
  | null
  | other
  | object (v : α)
  deriving DecidableEq, Repr

/-- The function `readCompletions`: the parsed document, `{}` when the slot is absent or
`JSON.parse` throws. -/
def readCompletions (st : Storage) : Parsed Completions :=
  match st.completions with
  | Slot.absent => Parsed.object []
  | Slot.unparseable => Parsed.object []
  | Slot.null => Parsed.null
  | Slot.other => Parsed.other
  | Slot.value all => Parsed.object all

def writeCompletions (st : Storage) (all : Completions) : Storage :=
  { st with completions := Slot.value all, writes := COMPLETIONS_KEY :: st.writes }

/-- The set `new Set(Object.keys(all[userId] || {}))`, as a duplicate-free list. On the
document `null` the read `all[userId]` throws a `TypeError`; under an inherited name
`Object.keys` enumerates a built-in. -/
def getCompletedIds (st : Storage) (userId : String) : Outcome (List String) :=
  match readCompletions st with
  | Parsed.null => Outcome.throws JsError.typeError st
  | Parsed.other => Outcome.outside
  | Parsed.object all =>
    match all.read userId with
    | Read.own mine => Outcome.returns mine.keys.dedup st
    | Read.inherited => Outcome.outside
    | Read.undefined => Outcome.returns [] st

/-- The test `Boolean(all?.[userId]?.[surveyId])`, `none` when the embedding does not follow
it. A stored record is an object, hence truthy, and so is an inherited built-in; under an
inherited `userId` the second read is a read on a built-in. -/
def hasCompleted (st : Storage) (userId surveyId : String) : Option Bool :=
  match readCompletions st with
  | Parsed.null => some false
  | Parsed.other => none
  | Parsed.object all =>
    match all.read userId with
    | Read.undefined => some false
    | Read.inherited => none
    | Read.own mine =>
      match mine.read surveyId with
      | Read.own _ => some true
      | Read.inherited => some true
      | Read.undefined => some false

/-- The call `localStorage.setItem(SURVEYS_VERSION_KEY, String(Date.now()))`. -/
def bumpVersion (env : Env) (st : Storage) : Storage :=
  { st with version := some (toString env.now), writes := SURVEYS_VERSION_KEY :: st.writes }

/-! ## Daily completions -/

/-- What `getDailyCompletions` returns: a date-to-count mapping, a built-in inherited under
`userId`, or nothing the embedding follows. -/
inductive DailyRead where
  | mapping (m : Obj Int)
  | builtin
  | outside
  deriving DecidableEq, Repr

/-- The expression `daily[userId] || {}` on a parsed object. -/
def dailyEntry (daily : Daily) (userId : String) : DailyRead :=
  match daily.read userId with
  | Read.own m => DailyRead.mapping m
  | Read.inherited => DailyRead.builtin
  | Read.undefined => DailyRead.mapping []

/-- The function `getDailyCompletions`. An absent slot parses `"{}"`; a `JSON.parse` failure
and the `TypeError` of the read `null[userId]` are caught and give `{}`. -/
def getDailyCompletions (st : Storage) (userId : String) : DailyRead :=
  match st.daily with
  | Slot.absent => dailyEntry [] userId
  | Slot.unparseable => DailyRead.mapping []
  | Slot.null => DailyRead.mapping []
  | Slot.other => DailyRead.outside
  | Slot.value daily => dailyEntry daily userId

/-- The call `localStorage.setItem(DAILY_COMPLETIONS_KEY, JSON.stringify({ [userId]: daily }))`. -/
def writeDaily (st : Storage) (userId : String) (daily : Obj Int) : Storage :=
  { st with daily := Slot.value [(userId, daily)], writes := DAILY_COMPLETIONS_KEY :: st.writes }

/-- The function `incrementDailyCompletions`. For a number `c` the value `(c || 0) + 1` is
`c + 1`; under an inherited `date` it is a text, and on a built-in the write is a write to
that built-in. -/
def incrementDailyCompletions (st : Storage) (userId date : String) : Outcome Unit :=
  match getDailyCompletions st userId with
  | DailyRead.mapping daily =>
    match daily.read date with
    | Read.own c => Outcome.returns () (writeDaily st userId (daily.set date (c + 1)))
    | Read.undefined => Outcome.returns () (writeDaily st userId (daily.set date 1))
    | Read.inherited => Outcome.outside
  | DailyRead.builtin => Outcome.outside
  | DailyRead.outside => Outcome.outside

/-- The function `resetDailyCompletionsIfNeeded`; on a built-in `Object.keys` enumerates that
built-in. -/
def resetDailyCompletionsIfNeeded (env : Env) (st : Storage) (userId : String) : Outcome Unit :=
  match getDailyCompletions st userId with
  | DailyRead.mapping daily =>
    Outcome.returns () (writeDaily st userId (daily.filter (fun p => p.1 == env.today)))
  | DailyRead.builtin => Outcome.outside
  | DailyRead.outside => Outcome.outside

/-- The function `markCompleted`. On the document `null` the read `all[userId]` throws a
`TypeError` before anything is written; under an inherited `userId` the record is written to
a built-in. -/
def markCompleted (env : Env) (st : Storage) (userId surveyId : String) (answers : Answers) :
    Outcome Unit :=
  match readCompletions st with
  | Parsed.null => Outcome.throws JsError.typeError st
  | Parsed.other => Outcome.outside
  | Parsed.object all =>
    match all.read userId with
    | Read.inherited => Outcome.outside
    | r =>
      let mine : Obj CompletionRecord :=
        match r with
        | Read.own m => m
        | _ => []
      let mine := mine.assign surveyId { answers := answers, completedAt := env.iso }
      let st := writeCompletions st (all.set userId mine)
      match incrementDailyCompletions st userId env.today with
      | Outcome.returns _ st => Outcome.returns () (bumpVersion env st)
      | Outcome.throws e st => Outcome.throws e st
      | Outcome.outside => Outcome.outside

/-- The function `resetCompletions`. The guard `if (all[userId])` passes for an own entry
and for an inherited built-in alike. -/
def resetCompletions (env : Env) (st : Storage) (userId : String) : Outcome Unit :=
  match readCompletions st with
  | Parsed.null => Outcome.throws JsError.typeError st
  | Parsed.other => Outcome.outside
  | Parsed.object all =>
    match all.read userId with
    | Read.undefined => Outcome.returns () st
    | _ => Outcome.returns () (bumpVersion env (writeCompletions st (all.del userId)))

/-- The expression `daily[today] || 0` on what `getDailyCompletions` returned, `none` when
the embedding does not follow it. -/
def todayCount (daily : DailyRead) (today : String) : Option Int :=
  match daily with
  | DailyRead.mapping m =>
    match m.read today with
    | Read.own c => some c
    | Read.undefined => some 0
    | Read.inherited => none
  | DailyRead.builtin => none
  | DailyRead.outside => none

def getRemainingSurveys (env : Env) (st : Storage) (userId : String) : Outcome JsNumber :=
  let r := getUser env st
  match resetDailyCompletionsIfNeeded env r.2 userId with
  | Outcome.returns _ st =>
    match todayCount (getDailyCompletions st userId) env.today with
    | some c => Outcome.returns (maxZeroMinus (limitOf r.1.tier) c) st
    | none => Outcome.outside
  | Outcome.throws e st => Outcome.throws e st
  | Outcome.outside => Outcome.outside

/-! ## Guard helpers -/

def canStartSurvey (env : Env) (st : Storage) (surveyId : String) : Outcome Bool :=
  let r := getUser env st
  match hasCompleted r.2 r.1.id surveyId with
  | none => Outcome.outside
  | some true => Outcome.returns false r.2
  | some false =>
    match resetDailyCompletionsIfNeeded env r.2 r.1.id with
    | Outcome.returns _ st =>
      match todayCount (getDailyCompletions st r.1.id) env.today with
      | some c => Outcome.returns (lessThan c (limitOf r.1.tier)) st
      | none => Outcome.outside
    | Outcome.throws e st => Outcome.throws e st
    | Outcome.outside => Outcome.outside

/-- The text of the error thrown by `ensureNotCompleted`. -/
def limitMessage (limit : Limit) : String :=
  "You have reached your daily limit of " ++ limitText limit ++ " surveys."

def ensureNotCompleted (env : Env) (st : Storage) (surveyId : String) : Outcome Unit :=
  match canStartSurvey env st surveyId with
  | Outcome.returns true st => Outcome.returns () st
  | Outcome.returns false st =>
    let r := getUser env st
    Outcome.throws (JsError.error (limitMessage (limitOf r.1.tier))) r.2
  | Outcome.throws e st => Outcome.throws e st
  | Outcome.outside => Outcome.outside

/-! ## UI mapping -/

/-- One question of a catalog entry. -/
abbrev Question := String

/-- The value of a catalog property that may carry the question collection:
an array (`Array.isArray`), a finite number (`Number.isFinite`), a non-finite
number, or anything else (missing, `null`, a string, an object). -/
inductive CatalogField where
  | list (xs : List Question)
  | number (n : Int)
  | nonFinite
  | other
  deriving DecidableEq, Repr

/-- The properties of a catalog entry that `listSurveysForUser` inspects.
`premium`, `payout` and `currency` are copied through and are not carried. -/
structure CatalogEntry where
  id : String
  name : Option String
  title : Option String
  description : Option String
  items : CatalogField
  questions : CatalogField
  deriving DecidableEq, Repr

/-- The record built for one catalog entry. -/
structure SurveyView where
  id : String
  title : String
  name : Option String
  description : String
  questions : List Question
  questionsCount : Int
  completed : Bool
  status : String
  locked : Bool
  retakeBlockedReason : Option String
  deriving DecidableEq, Repr

/-- The expression `a || b` on optional strings; the empty string is falsy. -/
def orElse (a : Option String) (b : String) : String :=
  match a with
  | some s => if s = "" then b else s
  | none => b

/-- The body of the `map` callback of `listSurveysForUser`. -/
def toView (completed : List String) (s : CatalogEntry) : SurveyView :=
  let count : Int :=
    match s.items with
    | CatalogField.list xs => xs.length
    | _ =>
      match s.questions with
      | CatalogField.list ys => ys.length
      | CatalogField.number n => n
      | _ => 0
  let isCompleted := decide (s.id ∈ completed)
  { id := s.id
    title := orElse s.name (orElse s.title "Survey")
    name := s.name
    description := orElse s.description ""
    questions :=
      match s.items with
      | CatalogField.list xs => xs
      | _ =>
        match s.questions with
        | CatalogField.list ys => ys
        | _ => []
    questionsCount := count
    completed := isCompleted
    status := if isCompleted then "completed" else "available"
    locked := isCompleted
    retakeBlockedReason :=
      if isCompleted then some "Already completed. Retakes are not allowed." else none }

/-- The function `listSurveysForUser`, given the document `loadDB()` resolved to;
`surveys` is its `surveys` property, `none` when that is missing. The completed set is read
before the catalog is loaded, so a failure of that read ends the call. -/
def listSurveysForUser (env : Env) (st : Storage) (surveys : Option (List CatalogEntry)) :
    Outcome (List SurveyView) :=
  let r := getUser env st
  match getCompletedIds r.2 r.1.id with
  | Outcome.returns completed st => Outcome.returns ((surveys.getD []).map (toView completed)) st
  | Outcome.throws e st => Outcome.throws e st
  | Outcome.outside => Outcome.outside

/-! ## Specification vocabulary -/

/-- The name `k` is not one every object inherits: the read `o[k]` finds an own property or
nothing. -/
def plainKey (k : String) : Prop :=
  k ∉ objectProtoKeys

instance plainKeyDecidable (k : String) : Decidable (plainKey k) := by
  unfold plainKey; infer_instance

/-- The slot reads as an object: it is absent, unparseable, or holds a document of the
module's shape. -/
def Slot.isObject {α : Type} (s : Slot α) : Bool :=
  match s with
  | Slot.absent => true
  | Slot.unparseable => true
  | Slot.value _ => true
  | Slot.null => false
  | Slot.other => false

/-- The slot holds a document other than `null` that does not have the module's shape. -/
def Slot.isOther {α : Type} (s : Slot α) : Bool :=
  match s with
  | Slot.other => true
  | _ => false

/-- The read yields something: an own property or an inherited built-in. -/
def Read.isDefined {α : Type} (r : Read α) : Bool :=
  match r with
  | Read.own _ => true
  | Read.inherited => true
  | Read.undefined => false

/-- The completions document in storage, empty when the slot holds none of the module's
shape. -/
def storedCompletions (st : Storage) : Completions :=
  match st.completions with
  | Slot.value all => all
  | _ => []

/-- The entry stored for `userId` in the completions document, `none` when the document or
the entry is missing. -/
def storedEntry (st : Storage) (userId : String) : Option (Obj CompletionRecord) :=
  (storedCompletions st).get userId

/-- A completion record is stored for the pair. -/
def hasRecord (st : Storage) (userId surveyId : String) : Bool :=
  match storedEntry st userId with
  | some mine => (mine.get surveyId).isSome
  | none => false

/-- The surveys for which a record is stored for `userId`, without repetition. -/
def storedIds (st : Storage) (userId : String) : List String :=
  match storedEntry st userId with
  | some mine => mine.keys.dedup
  | none => []

/-- The date-to-count mapping stored for `userId` in the daily-counter document, empty when
the document or the entry is missing. -/
def storedDaily (st : Storage) (userId : String) : Obj Int :=
  match st.daily with
  | Slot.value doc =>
    match doc.get userId with
    | some perDay => perDay
    | none => []
  | _ => []

/-- The count stored for `userId` under `date` in the daily-counter document, `0` when the
document, the user entry or the date entry is missing. -/
def storedCount (st : Storage) (userId date : String) : Int :=
  match st.daily with
  | Slot.value doc =>
    match doc.get userId with
    | some perDay =>
      match perDay.get date with
      | some c => c
      | none => 0
    | none => 0
  | _ => 0

/-- The storage a returning `markCompleted(userId, surveyId, answers)` leaves: the record
assigned in the entry of `userId`, the daily-counter document replaced by the single mapping
of `userId` with today's count raised by one, and the version marker set. -/
def markedStorage (env : Env) (st : Storage) (userId surveyId : String) (answers : Answers) :
    Storage :=
  bumpVersion env
    (writeDaily
      (writeCompletions st
        ((storedCompletions st).set userId
          (((storedEntry st userId).getD []).assign surveyId
            { answers := answers, completedAt := env.iso })))
      userId
      ((storedDaily st userId).set env.today (storedCount st userId env.today + 1)))

/-- The storage a returning `resetDailyCompletionsIfNeeded(userId)` leaves: the daily-counter
document replaced by the single mapping of `userId`, cut down to today's entry. -/
def prunedStorage (env : Env) (st : Storage) (userId : String) : Storage :=
  writeDaily st userId ((storedDaily st userId).filter (fun p => p.1 == env.today))

/-- Every date key stored for `userId` in the daily-counter document is `today`. -/
def onlyToday (st : Storage) (userId today : String) : Prop :=
  ∀ d ∈ (storedDaily st userId).keys, d = today

instance onlyTodayDecidable (st : Storage) (userId today : String) :
    Decidable (onlyToday st userId today) := by
  unfold onlyToday; infer_instance

/-- The storage after evaluating `canStartSurvey(surveyId)` once per clock reading of `envs`,
`none` unless every evaluation returns. -/
def canStartRepeat (envs : List Env) (st : Storage) (surveyId : String) : Option Storage :=
  match envs with
  | [] => some st
  | e :: rest =>
    match canStartSurvey e st surveyId with
    | Outcome.returns _ st => canStartRepeat rest st surveyId
    | _ => none

/-- The storage after the calls `markCompleted(userId, surveyId, answers)` of `calls`, in order,
each with its own clock reading, `none` unless every call returns. -/
def markCompletedAll (calls : List (Env × String × Answers)) (st : Storage) (userId : String) :
    Option Storage :=
  match calls with
  | [] => some st
  | c :: rest =>
    match markCompleted c.1 st userId c.2.1 c.2.2 with
    | Outcome.returns _ st => markCompletedAll rest st userId
    | _ => none

/-- The text `msg` contains the text `part`. -/
def containsText (msg part : String) : Prop :=
  ∃ pre post : String, msg = pre ++ part ++ post

/-! ## Sample data -/

/-- A clock reading on 14 November 2023 with an identifier generator. -/
def sampleEnv : Env :=
  { now := 1700000000000, iso := "2023-11-14T22:13:20.000Z", today := "2023-11-14",
    uuid := some "3f2c", dashed := by decide }

/-- A silver user. -/
def sampleUser : User :=
  { id := "u-1", name := "Ada", email := "ada@example.org", plan := "silver",
    tier := some "silver", balance := 120, createdAt := 1690000000000 }

/-- A storage in which `sampleUser` completed survey `s1`, has a count of 4 for the day
before and of 3 for the day of `sampleEnv`, and a second user has a count as well. -/
def sampleStorage : Storage :=
  { user := UserSlot.record sampleUser
    completions := Slot.value
      [("u-1", [("s1", { answers := [("q1", "yes")], completedAt := "2023-11-14T09:00:00.000Z" })])]
    daily := Slot.value
      [("u-1", [("2023-11-13", 4), ("2023-11-14", 3)]), ("u-2", [("2023-11-14", 9)])]
    version := some "1699950000000"
    writes := [] }

/-- A storage nobody has written to. -/
def emptyStorage : Storage :=
  { user := UserSlot.absent, completions := Slot.absent, daily := Slot.absent,
    version := none, writes := [] }

/-- The storage `sampleStorage` with the tier of the user set to `constructor`. -/
def oddTierStorage : Storage :=
  { sampleStorage with user := UserSlot.record { sampleUser with tier := some "constructor" } }

/-- The storage `sampleStorage` with the document `null` under the completions key. -/
def nullDocStorage : Storage :=
  { sampleStorage with completions := Slot.null }

/-- Two completions on the day of `sampleEnv`, the second a repeat of survey `s1`. -/
def sampleCalls : List (Env × String × Answers) :=
  [(sampleEnv, "s2", [("q1", "no")]), (sampleEnv, "s1", [])]

/-- A patch that carries an `id` property. -/
def idPatch : UserPatch :=
  { id := some "u-9", name := none, email := none, plan := none, tier := none,
    balance := none, createdAt := none }

/-- A patch that upgrades the tier. -/
def tierPatch : UserPatch :=
  { id := none, name := none, email := none, plan := some "gold", tier := some "gold",
    balance := none, createdAt := none }

/-- A storage whose completions document holds an entry without records for `u-1`. -/
def emptyEntryStorage : Storage :=
  { user := UserSlot.record sampleUser
    completions := Slot.value [("u-1", []), ("u-2", [("s1", { answers := [], completedAt := "" })])]
    daily := Slot.absent
    version := none
    writes := [] }

/-- A catalog entry with neither `items` nor `questions`. -/
def bareEntry : CatalogEntry :=
  { id := "s7", name := some "Shopping habits", title := none, description := none,
    items := CatalogField.other, questions := CatalogField.other }

/-! ## Basic facts about objects -/

theorem get_set_same {α : Type} (o : Obj α) (k : String) (v : α) :
    (o.set k v).get k = some v := by
  induction o with
  | nil => simp [Obj.set, Obj.get]
  | cons p rest ih =>
    obtain ⟨k', v'⟩ := p
    by_cases h : k' = k
    · simp [Obj.set, Obj.get, h]
    · simp [Obj.set, Obj.get, h, ih]

theorem get_set_ne {α : Type} (o : Obj α) (k k' : String) (v : α) (h : k' ≠ k) :
    (o.set k v).get k' = o.get k' := by
  induction o with
  | nil => simp [Obj.set, Obj.get, Ne.symm h]
  | cons p rest ih =>
    obtain ⟨k₀, v₀⟩ := p
    by_cases h₀ : k₀ = k
    · subst h₀
      simp [Obj.set, Obj.get, Ne.symm h]
    · by_cases h₁ : k₀ = k'
      · subst h₁
        simp [Obj.set, Obj.get, h₀]
      · simp [Obj.set, Obj.get, h₀, h₁, ih]

theorem get_del_same {α : Type} (o : Obj α) (k : String) : (o.del k).get k = none := by
  induction o with
  | nil => simp [Obj.del, Obj.get]
  | cons p rest ih =>
    obtain ⟨k₀, v₀⟩ := p
    have ih' : Obj.get (List.filter (fun p => p.1 != k) rest) k = none := ih
    by_cases h₀ : k₀ = k
    · simp [Obj.del, List.filter_cons, h₀, ih']
    · simp [Obj.del, List.filter_cons, h₀, Obj.get, ih']

theorem get_del_ne {α : Type} (o : Obj α) (k k' : String) (h : k' ≠ k) :
    (o.del k).get k' = o.get k' := by
  induction o with
  | nil => simp [Obj.del, Obj.get]
  | cons p rest ih =>
    obtain ⟨k₀, v₀⟩ := p
    have ih' : Obj.get (List.filter (fun p => p.1 != k) rest) k' = Obj.get rest k' := ih
    by_cases h₀ : k₀ = k
    · subst h₀
      simp [Obj.del, List.filter_cons, Obj.get, Ne.symm h, ih']
    · by_cases h₁ : k₀ = k'
      · subst h₁
        simp [Obj.del, List.filter_cons, h₀, Obj.get]
      · simp [Obj.del, List.filter_cons, h₀, Obj.get, h₁, ih']

/-- Keeping only the entries of one key does not change what that key reads. -/
theorem get_keep {α : Type} (o : Obj α) (d : String) :
    Obj.get (o.filter (fun p => p.1 == d)) d = o.get d := by
  induction o with
  | nil => simp [Obj.get]
  | cons p rest ih =>
    obtain ⟨k₀, v₀⟩ := p
    by_cases h₀ : k₀ = d
    · simp [List.filter_cons, h₀, Obj.get]
    · simp [List.filter_cons, h₀, Obj.get, ih]

theorem keys_keep {α : Type} (o : Obj α) (d : String) :
    ∀ k ∈ Obj.keys (o.filter (fun p => p.1 == d)), k = d := by
  intro k hk
  simp only [Obj.keys, List.mem_map, List.mem_filter] at hk
  obtain ⟨p, ⟨_, hp⟩, rfl⟩ := hk
  simpa using hp

theorem toDigitsCore_ne_nil (b fuel n : Nat) (ds : List Char) (h : ds ≠ []) :
    Nat.toDigitsCore b fuel n ds ≠ [] := by
  induction fuel generalizing n ds with
  | zero => simpa [Nat.toDigitsCore] using h
  | succ f ih =>
    simp only [Nat.toDigitsCore]
    split
    · simp
    · exact ih _ _ (by simp)

theorem toString_nat_ne_empty (n : Nat) : toString n ≠ "" := by
  have h : Nat.toDigits 10 n ≠ [] := by
    simp only [Nat.toDigits, Nat.toDigitsCore]
    split
    · simp
    · exact toDigitsCore_ne_nil _ _ _ _ (by simp)
  intro hs
  apply h
  have := congrArg String.data hs
  simpa [toString, Nat.repr, List.asString] using this

theorem freshId_ne_empty (env : Env) : freshId env ≠ "" := by
  unfold freshId
  split
  · split
    · exact toString_nat_ne_empty _
    · assumption
  · exact toString_nat_ne_empty _

theorem keys_set_of_get {α : Type} (o : Obj α) (k : String) (v : α)
    (h : (o.get k).isSome = true) : (o.set k v).keys = o.keys := by
  induction o with
  | nil => simp [Obj.get] at h
  | cons p rest ih =>
    obtain ⟨k₀, v₀⟩ := p
    by_cases h₀ : k₀ = k
    · simp [Obj.set, Obj.keys, h₀]
    · have h' : (Obj.get rest k).isSome = true := by simpa [Obj.get, h₀] using h
      have := ih h'
      simp only [Obj.keys] at this
      simp [Obj.set, Obj.keys, h₀, this]

theorem read_of_plain {α : Type} (o : Obj α) (k : String) (h : plainKey k) :
    o.read k = match o.get k with
      | some v => Read.own v
      | none => Read.undefined := by
  unfold Obj.read
  cases o.get k with
  | some v => rfl
  | none => simp only [plainKey] at h; simp [h]

theorem read_of_get {α : Type} (o : Obj α) (k : String) (v : α) (h : o.get k = some v) :
    o.read k = Read.own v := by
  simp [Obj.read, h]

theorem read_nil_of_plain {α : Type} (k : String) (h : plainKey k) :
    Obj.read ([] : Obj α) k = Read.undefined := by
  rw [read_of_plain _ _ h]; rfl

/-- After the write `o[k] = v` the read `o[k]` is not `undefined`. -/
theorem read_assign_defined {α : Type} (o : Obj α) (k : String) (v : α) :
    (o.assign k v).read k = Read.own v ∨ (o.assign k v).read k = Read.inherited := by
  unfold Obj.assign
  cases h : o.get k with
  | some w => exact Or.inl (read_of_get _ _ _ (get_set_same o k v))
  | none =>
    by_cases hk : k = "__proto__"
    · right
      subst hk
      simp [Obj.read, h, objectProtoKeys]
    · left
      simp only [hk, if_false]
      exact read_of_get _ _ _ (get_set_same o k v)

/-- A second write `o[k] = w` leaves the own keys as the first write left them. -/
theorem keys_assign_twice {α : Type} (o : Obj α) (k : String) (v w : α) :
    ((o.assign k v).assign k w).keys = (o.assign k v).keys := by
  cases h : o.get k with
  | some u =>
    have h1 : o.assign k v = o.set k v := by simp [Obj.assign, h]
    rw [h1]
    have h2 : (o.set k v).assign k w = (o.set k v).set k w := by
      simp [Obj.assign, get_set_same]
    rw [h2]
    exact keys_set_of_get _ _ _ (by simp [get_set_same])
  | none =>
    by_cases hk : k = "__proto__"
    · subst hk
      have h1 : ∀ u : α, o.assign "__proto__" u = o := by
        intro u
        simp [Obj.assign, h]
      rw [h1 v, h1 w]
    · have h1 : o.assign k v = o.set k v := by simp [Obj.assign, h, hk]
      rw [h1]
      have h2 : (o.set k v).assign k w = (o.set k v).set k w := by
        simp [Obj.assign, get_set_same]
      rw [h2]
      exact keys_set_of_get _ _ _ (by simp [get_set_same])

/-- The date part of a clock reading is not a name objects inherit. -/
theorem today_plain (env : Env) : plainKey env.today := by
  intro h
  have hd := env.dashed
  simp only [objectProtoKeys, List.mem_cons, List.mem_singleton, List.not_mem_nil,
    or_false] at h
  rcases h with h | h | h | h | h | h | h | h | h | h | h | h <;>
    (rw [h] at hd; revert hd; decide)

/-! ## Basic facts about the stores -/

theorem getUser_of_valid (env : Env) (st : Storage) (u : User)
    (hu : st.user = UserSlot.record u) (hid : u.id ≠ "") : getUser env st = (u, st) := by
  simp [getUser, hu, hid]

/-- After `getUser` the profile slot holds the returned record, whose identifier is not empty. -/
theorem getUser_post (env : Env) (st : Storage) :
    (getUser env st).2.user = UserSlot.record (getUser env st).1 ∧ (getUser env st).1.id ≠ "" := by
  unfold getUser
  split
  · rename_i u hu
    by_cases hid : u.id = ""
    · simp [hid, writeUser, freshUser, freshId_ne_empty]
    · simp [hid, hu]
  · simp [writeUser, freshUser, freshId_ne_empty]

theorem getUser_completions (env : Env) (st : Storage) :
    (getUser env st).2.completions = st.completions := by
  unfold getUser
  split
  · split <;> rfl
  · rfl

theorem getUser_daily (env : Env) (st : Storage) :
    (getUser env st).2.daily = st.daily := by
  unfold getUser
  split
  · split <;> rfl
  · rfl

theorem storedDaily_congr (st st' : Storage) (h : st'.daily = st.daily) (userId : String) :
    storedDaily st' userId = storedDaily st userId := by
  simp [storedDaily, h]

theorem storedCount_congr (st st' : Storage) (h : st'.daily = st.daily) (userId date : String) :
    storedCount st' userId date = storedCount st userId date := by
  simp [storedCount, h]

theorem storedCompletions_congr (st st' : Storage) (h : st'.completions = st.completions) :
    storedCompletions st' = storedCompletions st := by
  simp [storedCompletions, h]

theorem storedEntry_congr (st st' : Storage) (h : st'.completions = st.completions)
    (userId : String) : storedEntry st' userId = storedEntry st userId := by
  simp [storedEntry, storedCompletions_congr st st' h]

theorem hasCompleted_congr (st st' : Storage) (h : st'.completions = st.completions)
    (userId surveyId : String) : hasCompleted st' userId surveyId = hasCompleted st userId surveyId := by
  simp [hasCompleted, readCompletions, h]

theorem getDaily_congr (st st' : Storage) (h : st'.daily = st.daily) (userId : String) :
    getDailyCompletions st' userId = getDailyCompletions st userId := by
  simp [getDailyCompletions, h]

theorem storedCount_eq (st : Storage) (userId date : String) :
    storedCount st userId date = ((storedDaily st userId).get date).getD 0 := by
  unfold storedCount storedDaily
  cases st.daily with
  | value doc =>
    cases h : Obj.get doc userId with
    | none => simp [h, Obj.get]
    | some perDay => cases h' : Obj.get perDay date <;> simp [h, h']
  | _ => simp [Obj.get]

/-- Under a name objects do not inherit, `getDailyCompletions` returns the stored mapping. -/
theorem getDaily_plain (st : Storage) (userId : String) (hu : plainKey userId)
    (hd : st.daily.isOther = false) :
    getDailyCompletions st userId = DailyRead.mapping (storedDaily st userId) := by
  unfold getDailyCompletions storedDaily
  cases hs : st.daily with
  | absent => simp [dailyEntry, read_nil_of_plain userId hu]
  | unparseable => rfl
  | null => rfl
  | other => simp [hs, Slot.isOther] at hd
  | value doc =>
    simp only [dailyEntry, read_of_plain doc userId hu]
    cases Obj.get doc userId <;> rfl

theorem getDaily_writeDaily (st : Storage) (userId : String) (daily : Obj Int) :
    getDailyCompletions (writeDaily st userId daily) userId = DailyRead.mapping daily := by
  simp [getDailyCompletions, writeDaily, dailyEntry, Obj.read, Obj.get]

theorem storedDaily_writeDaily (st : Storage) (userId : String) (daily : Obj Int) :
    storedDaily (writeDaily st userId daily) userId = daily := by
  simp [storedDaily, writeDaily, Obj.get]

theorem storedDaily_writeDaily_other (st : Storage) (userId other : String) (daily : Obj Int)
    (h : other ≠ userId) : storedDaily (writeDaily st userId daily) other = [] := by
  simp [storedDaily, writeDaily, Obj.get, Ne.symm h]

theorem todayCount_plain (m : Obj Int) (date : String) (h : plainKey date) :
    todayCount (DailyRead.mapping m) date = some ((m.get date).getD 0) := by
  simp only [todayCount, read_of_plain m date h]
  cases Obj.get m date <;> rfl

theorem resetDaily_plain (env : Env) (st : Storage) (userId : String) (hu : plainKey userId)
    (hd : st.daily.isOther = false) :
    resetDailyCompletionsIfNeeded env st userId
      = Outcome.returns () (prunedStorage env st userId) := by
  simp [resetDailyCompletionsIfNeeded, getDaily_plain st userId hu hd, prunedStorage]

theorem storedCount_pruned (env : Env) (st : Storage) (userId : String) :
    storedCount (prunedStorage env st userId) userId env.today
      = storedCount st userId env.today := by
  rw [storedCount_eq, storedCount_eq, prunedStorage, storedDaily_writeDaily, get_keep]

theorem increment_plain (st : Storage) (userId date : String) (hu : plainKey userId)
    (hdate : plainKey date) (hd : st.daily.isOther = false) :
    incrementDailyCompletions st userId date
      = Outcome.returns ()
          (writeDaily st userId
            ((storedDaily st userId).set date (storedCount st userId date + 1))) := by
  simp only [incrementDailyCompletions, getDaily_plain st userId hu hd,
    read_of_plain _ date hdate, storedCount_eq]
  cases Obj.get (storedDaily st userId) date <;> simp

/-- Under a name objects do not inherit, and with a daily document the embedding follows,
`getRemainingSurveys` returns, with the stored profile, limit and count. -/
theorem remaining_plain (env : Env) (st : Storage) (userId : String) (hu : plainKey userId)
    (hd : st.daily.isOther = false) :
    getRemainingSurveys env st userId
      = Outcome.returns
          (maxZeroMinus (limitOf (getUser env st).1.tier) (storedCount st userId env.today))
          (prunedStorage env (getUser env st).2 userId) := by
  have hd' : (getUser env st).2.daily.isOther = false := by rw [getUser_daily]; exact hd
  simp only [getRemainingSurveys, resetDaily_plain env _ userId hu hd']
  simp only [prunedStorage, getDaily_writeDaily, todayCount_plain _ _ (today_plain env), get_keep]
  rw [← storedCount_eq, storedCount_congr _ _ (getUser_daily env st)]

/-- With a completions slot that reads as an object, `readCompletions` returns the stored
document. -/
theorem readCompletions_object (st : Storage) (hc : st.completions.isObject = true) :
    readCompletions st = Parsed.object (storedCompletions st) := by
  unfold readCompletions storedCompletions
  cases hs : st.completions <;> simp_all [Slot.isObject]

theorem read_entry_plain (st : Storage) (userId : String) (hu : plainKey userId) :
    (storedCompletions st).read userId
      = match storedEntry st userId with
        | some mine => Read.own mine
        | none => Read.undefined := by
  rw [read_of_plain _ _ hu, storedEntry]
  cases Obj.get (storedCompletions st) userId <;> rfl

/-- Under a user name objects do not inherit, `hasCompleted` tells whether the read of
`surveyId` in the stored entry yields something. -/
theorem hasCompleted_plain (st : Storage) (userId surveyId : String)
    (hc : st.completions.isObject = true) (hu : plainKey userId) :
    hasCompleted st userId surveyId
      = some (match storedEntry st userId with
        | some mine => (mine.read surveyId).isDefined
        | none => false) := by
  simp only [hasCompleted, readCompletions_object st hc, read_entry_plain st userId hu]
  cases storedEntry st userId with
  | none => rfl
  | some mine => cases h : mine.read surveyId <;> simp [h, Read.isDefined]

/-- Under names objects do not inherit, `hasCompleted` tells whether a record is stored. -/
theorem hasCompleted_record (st : Storage) (userId surveyId : String)
    (hc : st.completions.isObject = true) (hu : plainKey userId) (hs : plainKey surveyId) :
    hasCompleted st userId surveyId = some (hasRecord st userId surveyId) := by
  rw [hasCompleted_plain st userId surveyId hc hu, hasRecord]
  cases storedEntry st userId with
  | none => rfl
  | some mine =>
    simp only [read_of_plain mine surveyId hs]
    cases Obj.get mine surveyId <;> rfl

theorem canStart_of_completed (env : Env) (st : Storage) (surveyId : String)
    (h : hasCompleted (getUser env st).2 (getUser env st).1.id surveyId = some true) :
    canStartSurvey env st surveyId = Outcome.returns false (getUser env st).2 := by
  simp [canStartSurvey, h]

theorem canStart_of_not_completed (env : Env) (st : Storage) (surveyId : String)
    (h : hasCompleted (getUser env st).2 (getUser env st).1.id surveyId = some false)
    (hu : plainKey (getUser env st).1.id) (hd : st.daily.isOther = false) :
    canStartSurvey env st surveyId
      = Outcome.returns
          (lessThan (storedCount st (getUser env st).1.id env.today)
            (limitOf (getUser env st).1.tier))
          (prunedStorage env (getUser env st).2 (getUser env st).1.id) := by
  have hd' : (getUser env st).2.daily.isOther = false := by rw [getUser_daily]; exact hd
  simp only [canStartSurvey, h, resetDaily_plain env _ _ hu hd']
  simp only [prunedStorage, getDaily_writeDaily, todayCount_plain _ _ (today_plain env), get_keep]
  rw [← storedCount_eq, storedCount_congr _ _ (getUser_daily env st)]

/-- Under a user name objects do not inherit, with a completions slot that reads as an
object and a daily document the embedding follows, `markCompleted` returns and leaves
`markedStorage`. -/
theorem markCompleted_plain (env : Env) (st : Storage) (userId surveyId : String)
    (answers : Answers) (hc : st.completions.isObject = true)
    (hd : st.daily.isOther = false) (hu : plainKey userId) :
    markCompleted env st userId surveyId answers
      = Outcome.returns () (markedStorage env st userId surveyId answers) := by
  have hinc : ∀ all : Completions,
      incrementDailyCompletions (writeCompletions st all) userId env.today
        = Outcome.returns ()
            (writeDaily (writeCompletions st all) userId
              ((storedDaily st userId).set env.today (storedCount st userId env.today + 1))) := by
    intro all
    rw [increment_plain _ userId env.today hu (today_plain env) (by exact hd)]
    rfl
  simp only [markCompleted, readCompletions_object st hc, read_entry_plain st userId hu,
    markedStorage]
  cases h : storedEntry st userId with
  | none => simp [hinc]
  | some mine => simp [hinc]

theorem markedStorage_user (env : Env) (st : Storage) (userId surveyId : String)
    (answers : Answers) : (markedStorage env st userId surveyId answers).user = st.user := rfl

theorem markedStorage_completions (env : Env) (st : Storage) (userId surveyId : String)
    (answers : Answers) :
    (markedStorage env st userId surveyId answers).completions
      = Slot.value ((storedCompletions st).set userId
          (((storedEntry st userId).getD []).assign surveyId
            { answers := answers, completedAt := env.iso })) := rfl

theorem markedStorage_daily (env : Env) (st : Storage) (userId surveyId : String)
    (answers : Answers) :
    (markedStorage env st userId surveyId answers).daily
      = Slot.value [(userId,
          (storedDaily st userId).set env.today (storedCount st userId env.today + 1))] := rfl

theorem storedEntry_marked (env : Env) (st : Storage) (userId surveyId : String)
    (answers : Answers) :
    storedEntry (markedStorage env st userId surveyId answers) userId
      = some (((storedEntry st userId).getD []).assign surveyId
          { answers := answers, completedAt := env.iso }) := by
  simp [storedEntry, storedCompletions, markedStorage_completions, get_set_same]

theorem storedEntry_marked_other (env : Env) (st : Storage) (userId other surveyId : String)
    (answers : Answers) (h : other ≠ userId) :
    storedEntry (markedStorage env st userId surveyId answers) other = storedEntry st other := by
  simp only [storedEntry, storedCompletions, markedStorage_completions]
  exact get_set_ne _ _ _ _ h

theorem storedDaily_marked (env : Env) (st : Storage) (userId surveyId : String)
    (answers : Answers) :
    storedDaily (markedStorage env st userId surveyId answers) userId
      = (storedDaily st userId).set env.today (storedCount st userId env.today + 1) := by
  simp [storedDaily, markedStorage_daily, Obj.get]

theorem storedCount_marked (env : Env) (st : Storage) (userId surveyId : String)
    (answers : Answers) :
    storedCount (markedStorage env st userId surveyId answers) userId env.today
      = storedCount st userId env.today + 1 := by
  rw [storedCount_eq, storedDaily_marked, get_set_same]
  rfl

/-- After a returning `markCompleted` the read of the pair yields something. -/
theorem hasCompleted_marked (env : Env) (st : Storage) (userId surveyId : String)
    (answers : Answers) (hu : plainKey userId) :
    hasCompleted (markedStorage env st userId surveyId answers) userId surveyId = some true := by
  rw [hasCompleted_plain _ userId surveyId (by rw [markedStorage_completions]; rfl) hu,
    storedEntry_marked]
  rcases read_assign_defined ((storedEntry st userId).getD []) surveyId
    { answers := answers, completedAt := env.iso } with h | h <;> simp [h, Read.isDefined]

/-- On the document `null` the optional chain of `hasCompleted` yields `false`. -/
theorem hasCompleted_null (st : Storage) (userId surveyId : String)
    (h : st.completions = Slot.null) : hasCompleted st userId surveyId = some false := by
  simp [hasCompleted, readCompletions, h]

theorem hasRecord_null (st : Storage) (userId surveyId : String)
    (h : st.completions = Slot.null) : hasRecord st userId surveyId = false := by
  simp [hasRecord, storedEntry, storedCompletions, h, Obj.get]

theorem isObject_or_null {α : Type} (s : Slot α) (h : s.isOther = false) :
    s.isObject = true ∨ s = Slot.null := by
  cases s <;> simp_all [Slot.isOther, Slot.isObject]

/-- Under a user name objects do not inherit, with a completions document the embedding
follows, `hasCompleted` has a value for every survey. -/
theorem hasCompleted_some (st : Storage) (userId surveyId : String)
    (hc : st.completions.isOther = false) (hu : plainKey userId) :
    ∃ b : Bool, hasCompleted st userId surveyId = some b := by
  rcases isObject_or_null _ hc with h | h
  · exact ⟨_, hasCompleted_plain st userId surveyId h hu⟩
  · exact ⟨_, hasCompleted_null st userId surveyId h⟩

theorem hasCompleted_record' (st : Storage) (userId surveyId : String)
    (hc : st.completions.isOther = false) (hu : plainKey userId) (hs : plainKey surveyId) :
    hasCompleted st userId surveyId = some (hasRecord st userId surveyId) := by
  rcases isObject_or_null _ hc with h | h
  · exact hasCompleted_record st userId surveyId h hu hs
  · rw [hasCompleted_null st userId surveyId h, hasRecord_null st userId surveyId h]

theorem limitOf_table :
    limitOf (some "free") = Limit.num 1 ∧ limitOf (some "silver") = Limit.num 5 ∧
    limitOf (some "gold") = Limit.num 10 ∧ limitOf (some "platinum") = Limit.num 20 ∧
    limitOf none = Limit.num 0 ∧
    ∀ t : String, t ∉ ["free", "silver", "gold", "platinum"] → plainKey t →
      limitOf (some t) = Limit.num 0 := by
  refine ⟨by decide, by decide, by decide, by decide, by decide, ?_⟩
  intro t ht hp
  simp only [List.mem_cons, List.mem_singleton, List.not_mem_nil, or_false, not_or] at ht
  obtain ⟨h1, h2, h3, h4⟩ := ht
  simp [limitOf, read_of_plain _ t hp, PACKAGE_LIMITS, Obj.get, Ne.symm h1, Ne.symm h2,
    Ne.symm h3, Ne.symm h4]

/-- For a tier that is missing or not a name objects inherit, the limit is a number. -/
theorem limitOf_plain (tier : Option String) (h : ∀ t : String, tier = some t → plainKey t) :
    ∃ n : Int, limitOf tier = Limit.num n := by
  cases tier with
  | none => exact ⟨0, rfl⟩
  | some t =>
    have hp := h t rfl
    simp only [limitOf, read_of_plain _ t hp]
    cases Obj.get PACKAGE_LIMITS t with
    | none => exact ⟨0, rfl⟩
    | some n => exact ⟨_, rfl⟩

/-! ## C1 -/

/-- C1 fails as stated: in `sampleStorage` the user `u-1` has no completion record for the
survey `constructor` and a count of 3 under a limit of 5, yet `canStartSurvey("constructor")`
returns false, because the read of `constructor` in the user's entry finds the inherited
built-in. -/
theorem canStartSurvey_counterexample :
    sampleStorage.user = UserSlot.record sampleUser ∧
    hasRecord sampleStorage "u-1" "constructor" = false ∧
    storedCount sampleStorage "u-1" sampleEnv.today = 3 ∧
    limitOf sampleUser.tier = Limit.num 5 ∧
    canStartSurvey sampleEnv sampleStorage "constructor"
      = Outcome.returns false sampleStorage := by
  decide

/-- C1, amended: with a valid current user `u` in storage whose id is not a name objects
inherit, completions and daily documents that are absent, unparseable, `null` or of the
module's shape, a tier whose limit is the number `n`, and a `surveyId` that is not a name
objects inherit, `canStartSurvey(surveyId)` returns false when a completion record is stored
for `u` and `surveyId`; otherwise it returns false when the count stored for `u` under today's
date is at least `n`; otherwise it returns true. -/
theorem canStartSurvey_spec (env : Env) (st : Storage) (u : User) (surveyId : String) (n : Int)
    (hu : st.user = UserSlot.record u) (hid : u.id ≠ "")
    (hkey : plainKey u.id) (hsid : plainKey surveyId)
    (hc : st.completions.isOther = false) (hd : st.daily.isOther = false)
    (hlim : limitOf u.tier = Limit.num n) :
    ∃ st' : Storage, canStartSurvey env st surveyId
      = Outcome.returns
          (if hasRecord st u.id surveyId = true then false
            else if storedCount st u.id env.today ≥ n then false
            else true) st' := by
  have hg := getUser_of_valid env st u hu hid
  have hh : hasCompleted (getUser env st).2 (getUser env st).1.id surveyId
      = some (hasRecord st u.id surveyId) := by
    rw [hg]; exact hasCompleted_record' st u.id surveyId hc hkey hsid
  cases hr : hasRecord st u.id surveyId
  · rw [hr] at hh
    refine ⟨prunedStorage env st u.id, ?_⟩
    rw [canStart_of_not_completed env st surveyId hh (by rw [hg]; exact hkey) hd, hg]
    simp only [hlim, lessThan]
    by_cases hq : storedCount st u.id env.today ≥ n
    · simp [hq]
    · simp [hq]
      omega
  · rw [hr] at hh
    refine ⟨st, ?_⟩
    rw [canStart_of_completed env st surveyId hh, hg]
    simp

theorem canStartSurvey_spec_witness :
    sampleStorage.user = UserSlot.record sampleUser ∧ sampleUser.id ≠ "" ∧
    plainKey sampleUser.id ∧ plainKey "s2" ∧ sampleStorage.completions.isOther = false ∧
    sampleStorage.daily.isOther = false ∧ limitOf sampleUser.tier = Limit.num 5 ∧
    ∃ st' : Storage, canStartSurvey sampleEnv sampleStorage "s2"
      = Outcome.returns
          (if hasRecord sampleStorage sampleUser.id "s2" = true then false
            else if storedCount sampleStorage sampleUser.id sampleEnv.today ≥ 5 then false
            else true) st' :=
  ⟨rfl, by decide, by decide, by decide, rfl, rfl, by decide,
    canStartSurvey_spec sampleEnv sampleStorage sampleUser "s2" 5 rfl (by decide) (by decide)
      (by decide) rfl rfl (by decide)⟩

/-! ## C2 -/

/-- C2 fails as stated: with the tier `constructor`, which is not in the table,
`getRemainingSurveys` returns `NaN` and not `max(0, 0 - 3) = 0`, because
`PACKAGE_LIMITS["constructor"]` is the inherited built-in. -/
theorem getRemainingSurveys_counterexample :
    (getUser sampleEnv oddTierStorage).1.tier = some "constructor" ∧
    "constructor" ∉ ["free", "silver", "gold", "platinum"] ∧
    storedCount oddTierStorage "u-1" sampleEnv.today = 3 ∧
    (getRemainingSurveys sampleEnv oddTierStorage "u-1").value = some JsNumber.nan := by
  decide

/-- C2, amended: with a valid current user `u` in storage whose id is not a name objects
inherit, whose tier is missing or not such a name, and a daily document that is absent,
unparseable, `null` or of the module's shape, `getRemainingSurveys(u.id)` returns
`max(0, n - c)`, where `n` is the limit of the tier and `c` the count stored for `u.id` under
today's date (0 when absent). The limit is 1, 5, 10, 20 for free, silver, gold, platinum and
0 for a missing tier and for every other tier that is not a name objects inherit. A storage
with the same profile and the same count for today gives the same result whatever counts it
holds under other dates. -/
theorem getRemainingSurveys_spec (env : Env) (st : Storage) (u : User)
    (hu : st.user = UserSlot.record u) (hid : u.id ≠ "") (hkey : plainKey u.id)
    (htier : ∀ t : String, u.tier = some t → plainKey t) (hd : st.daily.isOther = false) :
    (∃ n : Int, limitOf u.tier = Limit.num n ∧
      (getRemainingSurveys env st u.id).value
        = some (JsNumber.fin (max 0 (n - storedCount st u.id env.today)))) ∧
    (limitOf (some "free") = Limit.num 1 ∧ limitOf (some "silver") = Limit.num 5 ∧
      limitOf (some "gold") = Limit.num 10 ∧ limitOf (some "platinum") = Limit.num 20 ∧
      limitOf none = Limit.num 0 ∧
      ∀ t : String, t ∉ ["free", "silver", "gold", "platinum"] → plainKey t →
        limitOf (some t) = Limit.num 0) ∧
    (∀ st' : Storage, st'.user = st.user → st'.daily.isOther = false →
      storedCount st' u.id env.today = storedCount st u.id env.today →
      (getRemainingSurveys env st' u.id).value = (getRemainingSurveys env st u.id).value) := by
  obtain ⟨n, hn⟩ := limitOf_plain u.tier htier
  refine ⟨⟨n, hn, ?_⟩, limitOf_table, ?_⟩
  · rw [remaining_plain env st u.id hkey hd, getUser_of_valid env st u hu hid]
    simp [Outcome.value, hn, maxZeroMinus]
  · intro st' hu' hd' hcount
    rw [remaining_plain env st u.id hkey hd, remaining_plain env st' u.id hkey hd',
      getUser_of_valid env st u hu hid, getUser_of_valid env st' u (hu'.trans hu) hid, hcount]
    rfl

theorem getRemainingSurveys_spec_witness :
    sampleStorage.user = UserSlot.record sampleUser ∧ sampleUser.id ≠ "" ∧
    plainKey sampleUser.id ∧ (∀ t : String, sampleUser.tier = some t → plainKey t) ∧
    sampleStorage.daily.isOther = false ∧
    ∃ n : Int, limitOf sampleUser.tier = Limit.num n ∧
      (getRemainingSurveys sampleEnv sampleStorage sampleUser.id).value
        = some (JsNumber.fin (max 0 (n - storedCount sampleStorage sampleUser.id sampleEnv.today))) :=
  ⟨rfl, by decide, by decide, by intro t h; cases h; decide, rfl,
    (getRemainingSurveys_spec sampleEnv sampleStorage sampleUser rfl (by decide) (by decide)
      (by intro t h; cases h; decide) rfl).1⟩

/-! ## C3 -/

/-- Once the read of the pair yields something for the valid stored user, every further
`canStartSurvey` returns and leaves the storage as it is. -/
theorem canStartRepeat_completed (envs : List Env) (st : Storage) (u : User)
    (surveyId : String) (hu : st.user = UserSlot.record u) (hid : u.id ≠ "")
    (h : hasCompleted st u.id surveyId = some true) :
    canStartRepeat envs st surveyId = some st := by
  induction envs with
  | nil => rfl
  | cons e rest ih =>
    have hg := getUser_of_valid e st u hu hid
    have hstart : canStartSurvey e st surveyId = Outcome.returns false st := by
      rw [canStart_of_completed e st surveyId (by rw [hg]; exact h), hg]
    simp only [canStartRepeat, hstart]
    exact ih

/-- C3 fails as stated: with the document `null` under the completions key,
`markCompleted("u-1", "s2", [])` throws a `TypeError` and writes nothing, so afterwards
`hasCompleted("u-1", "s2")` is false and `canStartSurvey("s2")` is true. -/
theorem no_retake_counterexample :
    (getUser sampleEnv nullDocStorage).1.id = "u-1" ∧
    markCompleted sampleEnv nullDocStorage "u-1" "s2" []
      = Outcome.throws JsError.typeError nullDocStorage ∧
    hasCompleted nullDocStorage "u-1" "s2" = some false ∧
    (canStartSurvey sampleEnv nullDocStorage "s2").value = some true := by
  decide

/-- C3, amended: let `u` be the current user (the record `getUser()` returns), with an id that
is not a name objects inherit, in a storage whose completions document is absent, unparseable
or of the module's shape and whose daily document is absent, unparseable, `null` or of the
module's shape. For every `surveyId` and `answers`, `markCompleted(u.id, surveyId, answers)`
returns; after it, and after any number of further `canStartSurvey(surveyId)` evaluations at
any clock readings, `hasCompleted(u.id, surveyId)` is true, `canStartSurvey(surveyId)` returns
false, and the completions document is the one `markCompleted` wrote. -/
theorem no_retake (env envM env' : Env) (envs : List Env) (st : Storage) (surveyId : String)
    (answers : Answers) (hc : st.completions.isObject = true)
    (hd : st.daily.isOther = false) (hkey : plainKey (getUser env st).1.id) :
    ∃ st1 st2 : Storage,
      markCompleted envM (getUser env st).2 (getUser env st).1.id surveyId answers
        = Outcome.returns () st1 ∧
      canStartRepeat envs st1 surveyId = some st2 ∧
      hasCompleted st2 (getUser env st).1.id surveyId = some true ∧
      canStartSurvey env' st2 surveyId = Outcome.returns false st2 ∧
      st2.completions = st1.completions := by
  obtain ⟨hslot, hid⟩ := getUser_post env st
  have hc' : (getUser env st).2.completions.isObject = true := by
    rw [getUser_completions]; exact hc
  have hd' : (getUser env st).2.daily.isOther = false := by rw [getUser_daily]; exact hd
  have hmark := markCompleted_plain envM (getUser env st).2 (getUser env st).1.id surveyId
    answers hc' hd' hkey
  have hdone := hasCompleted_marked envM (getUser env st).2 (getUser env st).1.id surveyId
    answers hkey
  have hu1 : (markedStorage envM (getUser env st).2 (getUser env st).1.id surveyId
      answers).user = UserSlot.record (getUser env st).1 := by
    rw [markedStorage_user]; exact hslot
  refine ⟨_, _, hmark, canStartRepeat_completed envs _ _ surveyId hu1 hid hdone, hdone, ?_, rfl⟩
  rw [canStart_of_completed env' _ surveyId
    (by rw [getUser_of_valid env' _ _ hu1 hid]; exact hdone), getUser_of_valid env' _ _ hu1 hid]

theorem no_retake_witness :
    sampleStorage.completions.isObject = true ∧ sampleStorage.daily.isOther = false ∧
    plainKey (getUser sampleEnv sampleStorage).1.id ∧
    ∃ st1 st2 : Storage,
      markCompleted sampleEnv (getUser sampleEnv sampleStorage).2
          (getUser sampleEnv sampleStorage).1.id "s2" [] = Outcome.returns () st1 ∧
      canStartRepeat [sampleEnv, sampleEnv] st1 "s2" = some st2 ∧
      hasCompleted st2 (getUser sampleEnv sampleStorage).1.id "s2" = some true ∧
      canStartSurvey sampleEnv st2 "s2" = Outcome.returns false st2 ∧
      st2.completions = st1.completions :=
  ⟨rfl, rfl, by decide,
    no_retake sampleEnv sampleEnv sampleEnv [sampleEnv, sampleEnv] sampleStorage "s2" [] rfl rfl
      (by decide)⟩

/-! ## C4 -/

theorem markedStorage_isObject (env : Env) (st : Storage) (userId surveyId : String)
    (answers : Answers) :
    (markedStorage env st userId surveyId answers).completions.isObject = true ∧
    (markedStorage env st userId surveyId answers).daily.isOther = false :=
  ⟨rfl, rfl⟩

/-- In the domain of `markCompleted_plain`, the calls of `calls` all return; they leave the
profile as it is and raise the count of a day all of them fall on by their number. -/
theorem markCompletedAll_plain (d : String) (calls : List (Env × String × Answers))
    (st : Storage) (userId : String) (hc : st.completions.isObject = true)
    (hd : st.daily.isOther = false) (hu : plainKey userId)
    (hday : ∀ c ∈ calls, c.1.today = d) :
    ∃ stN : Storage, markCompletedAll calls st userId = some stN ∧ stN.user = st.user ∧
      stN.completions.isObject = true ∧ stN.daily.isOther = false ∧
      storedCount stN userId d = storedCount st userId d + calls.length := by
  induction calls generalizing st with
  | nil => exact ⟨st, rfl, rfl, hc, hd, by simp⟩
  | cons c rest ih =>
    have hcd : c.1.today = d := hday c (List.mem_cons_self _ _)
    have hrest : ∀ c' ∈ rest, c'.1.today = d := fun c' h => hday c' (List.mem_cons_of_mem _ h)
    obtain ⟨hc1, hd1⟩ := markedStorage_isObject c.1 st userId c.2.1 c.2.2
    obtain ⟨stN, hall, huser, hobj, hother, hcount⟩ :=
      ih (markedStorage c.1 st userId c.2.1 c.2.2) hc1 hd1 hrest
    refine ⟨stN, ?_, ?_, hobj, hother, ?_⟩
    · simp only [markCompletedAll, markCompleted_plain c.1 st userId c.2.1 c.2.2 hc hd hu]
      exact hall
    · rw [huser, markedStorage_user]
    · rw [hcount, ← hcd, storedCount_marked, List.length_cons]
      push_cast
      ring

theorem getCompletedIds_plain (st : Storage) (userId : String)
    (hc : st.completions.isObject = true) (hu : plainKey userId) :
    getCompletedIds st userId = Outcome.returns (storedIds st userId) st := by
  simp only [getCompletedIds, readCompletions_object st hc, read_entry_plain st userId hu,
    storedIds]
  cases storedEntry st userId <;> rfl

/-- A second `markCompleted` for the same pair leaves the set of stored surveys as it is. -/
theorem storedIds_marked_twice (e1 e2 : Env) (st : Storage) (userId surveyId : String)
    (a1 a2 : Answers) :
    storedIds (markedStorage e2 (markedStorage e1 st userId surveyId a1) userId surveyId a2) userId
      = storedIds (markedStorage e1 st userId surveyId a1) userId := by
  simp only [storedIds, storedEntry_marked, Option.getD_some]
  rw [keys_assign_twice]

/-- C4 fails as stated: with the document `null` under the completions key,
`markCompleted("u-1", "s2", [])` throws before it reaches the counter, so the count of 3 is
not raised; and for a user of tier `constructor` with a count of 3, after one returning
`markCompleted` the result of `getRemainingSurveys` is `NaN`, not `max(0, 0 - 3 - 1)`. -/
theorem markCompleted_quota_counterexample :
    storedCount nullDocStorage "u-1" sampleEnv.today = 3 ∧
    (markCompleted sampleEnv nullDocStorage "u-1" "s2" []).storage.map
      (fun s => storedCount s "u-1" sampleEnv.today) = some 3 ∧
    (markCompleted sampleEnv oddTierStorage "u-1" "s2" []).storage.map
      (fun s => (getRemainingSurveys sampleEnv s "u-1").value) = some (some JsNumber.nan) := by
  decide

theorem isOther_of_isObject {α : Type} (s : Slot α) (h : s.isObject = true) :
    s.isOther = false := by
  cases s <;> simp_all [Slot.isOther, Slot.isObject]

/-- In the domain the embedding follows, `canStartSurvey` returns, and leaves the profile
`getUser` left. -/
theorem canStart_returns (env : Env) (st : Storage) (surveyId : String)
    (hkey : plainKey (getUser env st).1.id) (hc : st.completions.isOther = false)
    (hd : st.daily.isOther = false) :
    ∃ (b : Bool) (st' : Storage), canStartSurvey env st surveyId = Outcome.returns b st' ∧
      st'.user = (getUser env st).2.user ∧
      (b = true → hasCompleted (getUser env st).2 (getUser env st).1.id surveyId = some false) ∧
      b = (match hasCompleted (getUser env st).2 (getUser env st).1.id surveyId with
        | some true => false
        | _ => lessThan (storedCount st (getUser env st).1.id env.today)
            (limitOf (getUser env st).1.tier)) := by
  have hc' : (getUser env st).2.completions.isOther = false := by
    rw [getUser_completions]; exact hc
  obtain ⟨h, hh⟩ := hasCompleted_some (getUser env st).2 (getUser env st).1.id surveyId hc' hkey
  cases h with
  | true =>
    exact ⟨false, _, canStart_of_completed env st surveyId hh, rfl, by simp, by simp [hh]⟩
  | false =>
    exact ⟨_, _, canStart_of_not_completed env st surveyId hh hkey hd, rfl, fun _ => hh,
      by simp [hh]⟩

/-- C4, amended: in a storage whose completions document is absent, unparseable or of the
module's shape and whose daily document is absent, unparseable, `null` or of the module's
shape, and for a `userId` that is not a name objects inherit, each
`markCompleted(userId, surveyId, answers)` returns and raises the count stored for `userId`
under today's date by exactly one, also when the pair was completed before: a repeated call on
the same day leaves the set of completed surveys as it is and raises the count by two. For a
valid current user `u` with such an id and a tier whose limit is the number `n`, after the
calls of `calls` on the day of `env`, `getRemainingSurveys(u.id)` returns
`max(0, n - c - k)` with `c` the count before and `k` the number of calls; a silver user whose
count reaches 3 has 2 remaining, and one whose count reaches 5 has 0 remaining and
`canStartSurvey` returns false for every survey. -/
theorem markCompleted_quota (env e1 e2 : Env) (st : Storage) (u : User)
    (userId surveyId : String) (a1 a2 : Answers) (calls : List (Env × String × Answers))
    (n : Int) (hu : st.user = UserSlot.record u) (hid : u.id ≠ "")
    (hc : st.completions.isObject = true) (hd : st.daily.isOther = false)
    (hkey : plainKey userId) (hcur : plainKey u.id) (hlim : limitOf u.tier = Limit.num n)
    (hday : ∀ c ∈ calls, c.1.today = env.today) (h2 : e2.today = e1.today) :
    (∃ st1 : Storage, markCompleted e1 st userId surveyId a1 = Outcome.returns () st1 ∧
      storedCount st1 userId e1.today = storedCount st userId e1.today + 1) ∧
    (∃ (st1 st2 : Storage) (ids : List String),
      markCompleted e1 st userId surveyId a1 = Outcome.returns () st1 ∧
      markCompleted e2 st1 userId surveyId a2 = Outcome.returns () st2 ∧
      getCompletedIds st1 userId = Outcome.returns ids st1 ∧
      getCompletedIds st2 userId = Outcome.returns ids st2 ∧
      storedCount st2 userId e1.today = storedCount st userId e1.today + 2) ∧
    (∃ stN : Storage, markCompletedAll calls st u.id = some stN ∧
      (getRemainingSurveys env stN u.id).value
        = some (JsNumber.fin (max 0 (n - storedCount st u.id env.today - calls.length))) ∧
      (u.tier = some "silver" →
        (storedCount st u.id env.today + calls.length = 3 →
          (getRemainingSurveys env stN u.id).value = some (JsNumber.fin 2)) ∧
        (storedCount st u.id env.today + calls.length = 5 →
          (getRemainingSurveys env stN u.id).value = some (JsNumber.fin 0) ∧
          ∀ s : String, (canStartSurvey env stN s).value = some false))) := by
  have hm1 := markCompleted_plain e1 st userId surveyId a1 hc hd hkey
  obtain ⟨hc1, hd1⟩ := markedStorage_isObject e1 st userId surveyId a1
  have hm2 := markCompleted_plain e2 (markedStorage e1 st userId surveyId a1) userId surveyId a2
    hc1 hd1 hkey
  obtain ⟨hc2, hd2⟩ := markedStorage_isObject e2 (markedStorage e1 st userId surveyId a1) userId
    surveyId a2
  obtain ⟨stN, hall, huser, hobj, hother, hcount⟩ :=
    markCompletedAll_plain env.today calls st u.id hc hd hcur hday
  have huN : stN.user = UserSlot.record u := huser.trans hu
  have hgN := getUser_of_valid env stN u huN hid
  have hrem : (getRemainingSurveys env stN u.id).value
      = some (JsNumber.fin (max 0 (n - storedCount st u.id env.today - calls.length))) := by
    rw [remaining_plain env stN u.id hcur hother, hgN, hcount]
    simp only [Outcome.value, hlim, maxZeroMinus]
    congr 3
    ring
  refine ⟨⟨_, hm1, storedCount_marked e1 st userId surveyId a1⟩,
    ⟨_, _, _, hm1, hm2, getCompletedIds_plain _ userId hc1 hkey, ?_, ?_⟩,
    ⟨stN, hall, hrem, ?_⟩⟩
  · rw [getCompletedIds_plain _ userId hc2 hkey, storedIds_marked_twice]
  · have := storedCount_marked e2 (markedStorage e1 st userId surveyId a1) userId surveyId a2
    rw [h2, storedCount_marked] at this
    rw [this]
    ring
  · intro htier
    have hn : n = 5 := by
      rw [htier] at hlim
      have h5 : limitOf (some "silver") = Limit.num 5 := by decide
      rw [h5] at hlim
      exact (Limit.num.inj hlim).symm
    subst hn
    refine ⟨fun h3 => ?_, fun h5 => ⟨?_, fun s => ?_⟩⟩
    · rw [hrem]
      have : (5 : Int) - storedCount st u.id env.today - calls.length = 2 := by omega
      rw [this]; rfl
    · rw [hrem]
      have : (5 : Int) - storedCount st u.id env.today - calls.length = 0 := by omega
      rw [this]; rfl
    · obtain ⟨b, st', hstart, _, _, hb⟩ := canStart_returns env stN s (by rw [hgN]; exact hcur)
        (isOther_of_isObject _ hobj) hother
      rw [hstart]
      simp only [Outcome.value]
      rw [hb, hgN, hcount, hlim]
      have hlt : ¬ (storedCount st u.id env.today + (calls.length : Int) < 5) := by omega
      cases hasCompleted stN u.id s with
      | none => simp [lessThan, hlt]
      | some c => cases c <;> simp [lessThan, hlt]

theorem markCompleted_quota_witness :
    sampleStorage.user = UserSlot.record sampleUser ∧ sampleUser.id ≠ "" ∧
    sampleStorage.completions.isObject = true ∧ sampleStorage.daily.isOther = false ∧
    plainKey "u-1" ∧ plainKey sampleUser.id ∧ limitOf sampleUser.tier = Limit.num 5 ∧
    (∀ c ∈ sampleCalls, c.1.today = sampleEnv.today) ∧ sampleEnv.today = sampleEnv.today ∧
    ∃ st1 : Storage, markCompleted sampleEnv sampleStorage "u-1" "s1" [] = Outcome.returns () st1 ∧
      storedCount st1 "u-1" sampleEnv.today = storedCount sampleStorage "u-1" sampleEnv.today + 1 :=
  ⟨rfl, by decide, rfl, rfl, by decide, by decide, by decide, by decide, rfl,
    (markCompleted_quota sampleEnv sampleEnv sampleEnv sampleStorage sampleUser "u-1" "s1" [] []
      sampleCalls 5 rfl (by decide) rfl rfl (by decide) (by decide) (by decide) (by decide)
      rfl).1⟩

/-! ## C5 -/

theorem limitMessage_contains (n : Int) :
    containsText (limitMessage (Limit.num n)) (toString n) :=
  ⟨"You have reached your daily limit of ", " surveys.", rfl⟩

/-- A text without the character `0` does not contain the numeral `0`. -/
theorem not_containsText_zero (msg : String) (h : '0' ∉ msg.data) : ¬ containsText msg "0" := by
  rintro ⟨pre, post, hmsg⟩
  apply h
  rw [hmsg]
  simp [String.data_append]

/-- C5 fails as stated: for a user of the unknown tier `constructor`, `canStartSurvey("s2")`
is false and `ensureNotCompleted("s2")` throws, but the message carries the text of the
inherited built-in and does not contain the decimal limit 0. -/
theorem ensureNotCompleted_counterexample :
    (getUser sampleEnv oddTierStorage).1.tier = some "constructor" ∧
    (canStartSurvey sampleEnv oddTierStorage "s2").value = some false ∧
    ensureNotCompleted sampleEnv oddTierStorage "s2"
      = Outcome.throws
          (JsError.error
            "You have reached your daily limit of function Object() \x7b [native code] \x7d surveys.")
          (prunedStorage sampleEnv oddTierStorage "u-1") ∧
    ¬ containsText
        "You have reached your daily limit of function Object() \x7b [native code] \x7d surveys."
        "0" :=
  ⟨by decide, by decide, by decide, not_containsText_zero _ (by decide)⟩

/-- C5, amended: let the current user have an id that is not a name objects inherit and a
tier whose limit is the number `n`, in a storage whose completions and daily documents are
absent, unparseable, `null` or of the module's shape. Then `canStartSurvey(surveyId)`
returns; `ensureNotCompleted(surveyId)`, on the same storage at the same clock reading,
returns normally exactly when that result is true and throws exactly when it is false; and
what it throws is an error whose message contains the decimal numeral of `n`. -/
theorem ensureNotCompleted_spec (env : Env) (st : Storage) (surveyId : String) (n : Int)
    (hkey : plainKey (getUser env st).1.id) (hc : st.completions.isOther = false)
    (hd : st.daily.isOther = false) (hlim : limitOf (getUser env st).1.tier = Limit.num n) :
    ∃ (b : Bool) (st' : Storage), canStartSurvey env st surveyId = Outcome.returns b st' ∧
      (ensureNotCompleted env st surveyId = Outcome.returns () st' ↔ b = true) ∧
      ((∃ (e : JsError) (s : Storage), ensureNotCompleted env st surveyId = Outcome.throws e s)
        ↔ b = false) ∧
      (∀ (e : JsError) (s : Storage), ensureNotCompleted env st surveyId = Outcome.throws e s →
        e = JsError.error (limitMessage (Limit.num n)) ∧
        containsText (limitMessage (Limit.num n)) (toString n)) := by
  obtain ⟨b, st', hstart, huser, _, _⟩ := canStart_returns env st surveyId hkey hc hd
  obtain ⟨hslot, hid⟩ := getUser_post env st
  have hg : getUser env st' = ((getUser env st).1, st') :=
    getUser_of_valid env st' _ (huser.trans hslot) hid
  refine ⟨b, st', hstart, ?_⟩
  cases b with
  | true =>
    have he : ensureNotCompleted env st surveyId = Outcome.returns () st' := by
      simp [ensureNotCompleted, hstart]
    rw [he]
    refine ⟨⟨fun _ => rfl, fun _ => rfl⟩, ⟨fun h => ?_, fun h => ?_⟩, ?_⟩
    · obtain ⟨e, s, h⟩ := h
      cases h
    · cases h
    · intro e s h
      cases h
  | false =>
    have he : ensureNotCompleted env st surveyId
        = Outcome.throws (JsError.error (limitMessage (Limit.num n))) st' := by
      simp [ensureNotCompleted, hstart, hg, hlim]
    rw [he]
    refine ⟨⟨fun h => ?_, fun h => ?_⟩, ⟨fun _ => rfl, fun _ => ⟨_, _, rfl⟩⟩, ?_⟩
    · cases h
    · cases h
    · intro e s h
      cases h
      exact ⟨rfl, limitMessage_contains n⟩

theorem ensureNotCompleted_spec_witness :
    plainKey (getUser sampleEnv sampleStorage).1.id ∧
    sampleStorage.completions.isOther = false ∧ sampleStorage.daily.isOther = false ∧
    limitOf (getUser sampleEnv sampleStorage).1.tier = Limit.num 5 ∧
    ∃ (b : Bool) (st' : Storage), canStartSurvey sampleEnv sampleStorage "s1"
        = Outcome.returns b st' ∧
      (ensureNotCompleted sampleEnv sampleStorage "s1" = Outcome.returns () st' ↔ b = true) ∧
      ((∃ (e : JsError) (s : Storage),
          ensureNotCompleted sampleEnv sampleStorage "s1" = Outcome.throws e s) ↔ b = false) ∧
      (∀ (e : JsError) (s : Storage),
        ensureNotCompleted sampleEnv sampleStorage "s1" = Outcome.throws e s →
        e = JsError.error (limitMessage (Limit.num 5)) ∧
        containsText (limitMessage (Limit.num 5)) (toString (5 : Int))) :=
  ⟨by decide, rfl, rfl, by decide,
    ensureNotCompleted_spec sampleEnv sampleStorage "s1" 5 (by decide) rfl rfl (by decide)⟩

/-! ## C6 -/

theorem onlyToday_pruned (env : Env) (st : Storage) (userId : String) :
    onlyToday (prunedStorage env st userId) userId env.today := by
  unfold onlyToday
  rw [prunedStorage, storedDaily_writeDaily]
  exact keys_keep _ _

/-- C6 fails as stated: in `sampleStorage` the user `u-1` has a count under the day before.
After `markCompleted("u-1", "s2", [])` that entry is still stored, and so it is after
`canStartSurvey("s1")` for the survey `u-1` has completed. -/
theorem retention_counterexample :
    (getUser sampleEnv sampleStorage).1.id = "u-1" ∧
    ¬ onlyToday sampleStorage "u-1" sampleEnv.today ∧
    (markCompleted sampleEnv sampleStorage "u-1" "s2" []).storage.map
      (fun s => decide (onlyToday s "u-1" sampleEnv.today)) = some false ∧
    canStartSurvey sampleEnv sampleStorage "s1" = Outcome.returns false sampleStorage := by
  decide

/-- C6, amended: take a storage whose daily document is absent, unparseable, `null` or of the
module's shape, and user ids that are not names objects inherit. After
`getRemainingSurveys(userId)`, and after a `canStartSurvey(surveyId)` for which `hasCompleted`
is false for the current user, the daily-counter mapping stored for that user has no entry for
a date other than today. When `hasCompleted` is true, `canStartSurvey(surveyId)` returns false
and leaves the storage as `getUser()` left it, the daily-counter document untouched. With a
completions document that is absent, unparseable or of the module's shape,
`markCompleted(userId, ...)` returns, raises today's count by one and leaves the entries of
every other date as they were stored. -/
theorem retention_on_quota_reads (env : Env) (st : Storage) (userId surveyId : String)
    (answers : Answers) (hkey : plainKey userId) (hcur : plainKey (getUser env st).1.id)
    (hd : st.daily.isOther = false) :
    (∃ (r : JsNumber) (st' : Storage),
      getRemainingSurveys env st userId = Outcome.returns r st' ∧
      onlyToday st' userId env.today) ∧
    (hasCompleted (getUser env st).2 (getUser env st).1.id surveyId = some false →
      ∃ (b : Bool) (st' : Storage), canStartSurvey env st surveyId = Outcome.returns b st' ∧
        onlyToday st' (getUser env st).1.id env.today) ∧
    (hasCompleted (getUser env st).2 (getUser env st).1.id surveyId = some true →
      canStartSurvey env st surveyId = Outcome.returns false (getUser env st).2 ∧
      (getUser env st).2.daily = st.daily) ∧
    (st.completions.isObject = true →
      ∃ st' : Storage, markCompleted env st userId surveyId answers = Outcome.returns () st' ∧
        storedCount st' userId env.today = storedCount st userId env.today + 1 ∧
        ∀ d : String, d ≠ env.today →
          (storedDaily st' userId).get d = (storedDaily st userId).get d) := by
  refine ⟨⟨_, _, remaining_plain env st userId hkey hd, onlyToday_pruned env _ userId⟩,
    fun h => ⟨_, _, canStart_of_not_completed env st surveyId h hcur hd,
      onlyToday_pruned env _ _⟩,
    fun h => ⟨canStart_of_completed env st surveyId h, getUser_daily env st⟩,
    fun hc => ⟨_, markCompleted_plain env st userId surveyId answers hc hd hkey,
      storedCount_marked env st userId surveyId answers, fun d hne => ?_⟩⟩
  rw [storedDaily_marked, get_set_ne _ _ _ _ hne]

theorem retention_on_quota_reads_witness :
    plainKey "u-1" ∧ plainKey (getUser sampleEnv sampleStorage).1.id ∧
    sampleStorage.daily.isOther = false ∧
    (∃ (r : JsNumber) (st' : Storage),
      getRemainingSurveys sampleEnv sampleStorage "u-1" = Outcome.returns r st' ∧
      onlyToday st' "u-1" sampleEnv.today) ∧
    (∃ (b : Bool) (st' : Storage),
      canStartSurvey sampleEnv sampleStorage "s2" = Outcome.returns b st' ∧
      onlyToday st' (getUser sampleEnv sampleStorage).1.id sampleEnv.today) :=
  ⟨by decide, by decide, rfl,
    (retention_on_quota_reads sampleEnv sampleStorage "u-1" "s2" [] (by decide) (by decide)
      rfl).1,
    (retention_on_quota_reads sampleEnv sampleStorage "u-1" "s2" [] (by decide) (by decide)
      rfl).2.1 (by decide)⟩

/-! ## C7 -/

/-- C7 fails as stated: a patch with an `id` property replaces the identifier, and the next
`getUser()` returns the new one. -/
theorem setUser_id_counterexample :
    (getUser sampleEnv sampleStorage).1.id = "u-1" ∧
    ¬ ((setUser sampleEnv sampleStorage idPatch).1.id = (getUser sampleEnv sampleStorage).1.id) ∧
    ¬ ((getUser sampleEnv (setUser sampleEnv sampleStorage idPatch).2).1.id
        = (getUser sampleEnv sampleStorage).1.id) := by
  decide

/-- C7, amended: for every storage and every patch without an `id` property, `setUser(patch)`
returns and persists a record whose id is the id `getUser()` returned before the call, and a
later `getUser()` returns that id. -/
theorem setUser_keeps_id (env env' : Env) (st : Storage) (patch : UserPatch)
    (hpatch : patch.id = none) :
    (setUser env st patch).1.id = (getUser env st).1.id ∧
    (setUser env st patch).2.user = UserSlot.record (setUser env st patch).1 ∧
    (getUser env' (setUser env st patch).2).1.id = (getUser env st).1.id := by
  have hid : (setUser env st patch).1.id = (getUser env st).1.id := by
    simp [setUser, mergeUser, hpatch]
  have hslot : (setUser env st patch).2.user = UserSlot.record (setUser env st patch).1 := rfl
  refine ⟨hid, hslot, ?_⟩
  rw [getUser_of_valid env' _ _ hslot (by rw [hid]; exact (getUser_post env st).2), hid]

theorem setUser_keeps_id_witness :
    tierPatch.id = none ∧
    (setUser sampleEnv sampleStorage tierPatch).1.id = (getUser sampleEnv sampleStorage).1.id ∧
    (setUser sampleEnv sampleStorage tierPatch).2.user
      = UserSlot.record (setUser sampleEnv sampleStorage tierPatch).1 ∧
    (getUser sampleEnv (setUser sampleEnv sampleStorage tierPatch).2).1.id
      = (getUser sampleEnv sampleStorage).1.id :=
  ⟨rfl, setUser_keeps_id sampleEnv sampleEnv sampleStorage tierPatch rfl⟩

/-! ## C8 -/

/-- C8: when the profile slot is absent, unparseable, or parses to a value without a truthy
`id`, `getUser()` returns a record with tier `free`, balance 0 and a non-empty identifier, and
persists it with one write to the profile key; a second `getUser()`, at any clock reading,
returns the same record and leaves the storage, its write log included, as it is. -/
theorem getUser_default (env env' : Env) (st : Storage)
    (h : st.user = UserSlot.absent ∨ st.user = UserSlot.unparseable ∨ st.user = UserSlot.notUser ∨
      ∃ u : User, st.user = UserSlot.record u ∧ u.id = "") :
    (getUser env st).1.tier = some "free" ∧ (getUser env st).1.balance = 0 ∧
    (getUser env st).1.id ≠ "" ∧
    (getUser env st).2.user = UserSlot.record (getUser env st).1 ∧
    (getUser env st).2.writes = USER_KEY :: st.writes ∧
    getUser env' (getUser env st).2 = ((getUser env st).1, (getUser env st).2) := by
  have hfresh : getUser env st = (freshUser env, writeUser st (freshUser env)) := by
    rcases h with h | h | h | ⟨u, h, hid⟩
    · simp [getUser, h]
    · simp [getUser, h]
    · simp [getUser, h]
    · simp [getUser, h, hid]
  obtain ⟨hslot, hid⟩ := getUser_post env st
  refine ⟨?_, ?_, hid, hslot, ?_, getUser_of_valid env' _ _ hslot hid⟩ <;> rw [hfresh] <;> rfl

theorem getUser_default_witness :
    (emptyStorage.user = UserSlot.absent ∨ emptyStorage.user = UserSlot.unparseable ∨
      emptyStorage.user = UserSlot.notUser ∨
      ∃ u : User, emptyStorage.user = UserSlot.record u ∧ u.id = "") ∧
    (getUser sampleEnv emptyStorage).1.id = "3f2c" ∧
    (getUser sampleEnv (getUser sampleEnv emptyStorage).2).1.id = "3f2c" :=
  ⟨Or.inl rfl, by decide,
    by rw [(getUser_default sampleEnv sampleEnv emptyStorage (Or.inl rfl)).2.2.2.2.2]; decide⟩

/-! ## C9 -/

/-- C9: `listSurveysForUser` maps the catalog entries in order, with the completed set the
current user's `getCompletedIds` returns, and for every entry: when `items` is a list,
`questionsCount` is its length and `questions` is that list; otherwise when `questions` is a
list, `questionsCount` is its length and `questions` is that list; otherwise when `questions`
is a finite number `n`, `questionsCount` is `n` and `questions` is empty; otherwise
`questionsCount` is 0 and `questions` is empty. -/
theorem catalog_normalization (env : Env) (st : Storage) (surveys : List CatalogEntry)
    (completed : List String) (e : CatalogEntry) (xs ys : List Question) (n : Int)
    (f g : CatalogField) (hf : ∀ zs : List Question, f ≠ CatalogField.list zs)
    (hg : g = CatalogField.nonFinite ∨ g = CatalogField.other) :
    (listSurveysForUser env st (some surveys)
      = match getCompletedIds (getUser env st).2 (getUser env st).1.id with
        | Outcome.returns ids st' => Outcome.returns (surveys.map (toView ids)) st'
        | Outcome.throws err st' => Outcome.throws err st'
        | Outcome.outside => Outcome.outside) ∧
    ((toView completed { e with items := CatalogField.list xs }).questionsCount = xs.length ∧
      (toView completed { e with items := CatalogField.list xs }).questions = xs) ∧
    ((toView completed { e with items := f, questions := CatalogField.list ys }).questionsCount
        = ys.length ∧
      (toView completed { e with items := f, questions := CatalogField.list ys }).questions = ys) ∧
    ((toView completed { e with items := f, questions := CatalogField.number n }).questionsCount = n ∧
      (toView completed { e with items := f, questions := CatalogField.number n }).questions = []) ∧
    ((toView completed { e with items := f, questions := g }).questionsCount = 0 ∧
      (toView completed { e with items := f, questions := g }).questions = []) := by
  refine ⟨?_, ⟨rfl, rfl⟩, ?_, ?_, ?_⟩
  · rfl
  · cases f with
    | list zs => exact absurd rfl (hf zs)
    | number m => exact ⟨rfl, rfl⟩
    | nonFinite => exact ⟨rfl, rfl⟩
    | other => exact ⟨rfl, rfl⟩
  · cases f with
    | list zs => exact absurd rfl (hf zs)
    | number m => exact ⟨rfl, rfl⟩
    | nonFinite => exact ⟨rfl, rfl⟩
    | other => exact ⟨rfl, rfl⟩
  · rcases hg with hg | hg <;> subst hg <;> cases f with
    | list zs => exact absurd rfl (hf zs)
    | number m => exact ⟨rfl, rfl⟩
    | nonFinite => exact ⟨rfl, rfl⟩
    | other => exact ⟨rfl, rfl⟩

theorem catalog_normalization_witness :
    (∀ zs : List Question, CatalogField.other ≠ CatalogField.list zs) ∧
    (CatalogField.other = CatalogField.nonFinite ∨ CatalogField.other = CatalogField.other) ∧
    (toView [] { bareEntry with items := CatalogField.list ["a", "b", "c"] }).questionsCount = 3 ∧
    ((toView [] { bareEntry with items := CatalogField.other, questions := CatalogField.number 7 }).questionsCount
        = 7 ∧
      (toView [] { bareEntry with items := CatalogField.other, questions := CatalogField.number 7 }).questions
        = []) ∧
    (toView [] { bareEntry with items := CatalogField.other, questions := CatalogField.other }).questionsCount
      = 0 :=
  ⟨fun _ h => CatalogField.noConfusion h, Or.inr rfl,
    (catalog_normalization sampleEnv sampleStorage [bareEntry] [] bareEntry ["a", "b", "c"] [] 7
      CatalogField.other CatalogField.other (fun _ h => CatalogField.noConfusion h) (Or.inr rfl)).2.1.1,
    (catalog_normalization sampleEnv sampleStorage [bareEntry] [] bareEntry ["a", "b", "c"] [] 7
      CatalogField.other CatalogField.other (fun _ h => CatalogField.noConfusion h) (Or.inr rfl)).2.2.2.1,
    (catalog_normalization sampleEnv sampleStorage [bareEntry] [] bareEntry ["a", "b", "c"] [] 7
      CatalogField.other CatalogField.other (fun _ h => CatalogField.noConfusion h) (Or.inr rfl)).2.2.2.2.1⟩

/-! ## C10 -/

theorem resetCompletions_of_none (env : Env) (st : Storage) (userId : String)
    (hc : st.completions.isObject = true) (hkey : plainKey userId)
    (h : storedEntry st userId = none) :
    resetCompletions env st userId = Outcome.returns () st := by
  simp [resetCompletions, readCompletions_object st hc, read_entry_plain st userId hkey, h]

theorem resetCompletions_of_some (env : Env) (st : Storage) (userId : String)
    (mine : Obj CompletionRecord) (hc : st.completions.isObject = true)
    (h : storedEntry st userId = some mine) :
    resetCompletions env st userId
      = Outcome.returns ()
          (bumpVersion env (writeCompletions st ((storedCompletions st).del userId))) := by
  have hr : (storedCompletions st).read userId = Read.own mine := read_of_get _ _ _ h
  simp [resetCompletions, readCompletions_object st hc, hr]

theorem storedEntry_cleared (env : Env) (st : Storage) (userId other : String) :
    storedEntry (bumpVersion env (writeCompletions st ((storedCompletions st).del userId))) other
      = ((storedCompletions st).del userId).get other := rfl

/-- Without a stored entry, and under a name objects do not inherit, no survey reads as
completed and the completed set is empty. -/
theorem no_entry_reads (st : Storage) (userId : String) (hc : st.completions.isObject = true)
    (hkey : plainKey userId) (h : storedEntry st userId = none) :
    getCompletedIds st userId = Outcome.returns [] st ∧
    ∀ s : String, hasCompleted st userId s = some false := by
  refine ⟨?_, fun s => ?_⟩
  · rw [getCompletedIds_plain st userId hc hkey, storedIds, h]
  · rw [hasCompleted_plain st userId s hc hkey, h]

/-- C10 fails as stated: in `emptyEntryStorage` the user `u-1` has no completion records, yet
`resetCompletions("u-1")` writes the completions key and the version marker; on a storage
nobody has written to, `resetCompletions("constructor")` does the same, because the guard
reads the inherited built-in; and on the document `null` the call throws a `TypeError`. -/
theorem resetCompletions_counterexample :
    getCompletedIds emptyEntryStorage "u-1" = Outcome.returns [] emptyEntryStorage ∧
    (resetCompletions sampleEnv emptyEntryStorage "u-1").storage.map (fun s => s.writes)
      = some [SURVEYS_VERSION_KEY, COMPLETIONS_KEY] ∧
    storedIds emptyStorage "constructor" = [] ∧
    (resetCompletions sampleEnv emptyStorage "constructor").storage.map (fun s => s.writes)
      = some [SURVEYS_VERSION_KEY, COMPLETIONS_KEY] ∧
    resetCompletions sampleEnv nullDocStorage "u-1"
      = Outcome.throws JsError.typeError nullDocStorage := by
  decide

/-- C10, amended: in a storage whose completions document is absent, unparseable or of the
module's shape, and for a `userId` that is not a name objects inherit,
`resetCompletions(userId)` returns and leaves `userId` with no completion records
(`getCompletedIds(userId)` is empty and `hasCompleted(userId, s)` is false for every `s`),
leaves every other user's completion records, the daily-counter store and the profile
unchanged, and when `userId` had no completions and the completions document holds no entry
without records for `userId`, it writes no storage key: the storage, write log included, stays
as it is. -/
theorem resetCompletions_spec (env : Env) (st : Storage) (userId : String)
    (hc : st.completions.isObject = true) (hkey : plainKey userId) :
    ∃ st' : Storage, resetCompletions env st userId = Outcome.returns () st' ∧
      getCompletedIds st' userId = Outcome.returns [] st' ∧
      (∀ s : String, hasCompleted st' userId s = some false) ∧
      (∀ other : String, other ≠ userId → storedEntry st' other = storedEntry st other) ∧
      st'.daily = st.daily ∧ st'.user = st.user ∧
      (getCompletedIds st userId = Outcome.returns [] st → storedEntry st userId ≠ some [] →
        st' = st) := by
  cases h : storedEntry st userId with
  | none =>
    obtain ⟨hids, hhas⟩ := no_entry_reads st userId hc hkey h
    exact ⟨st, resetCompletions_of_none env st userId hc hkey h, hids, hhas, fun _ _ => rfl,
      rfl, rfl, fun _ _ => rfl⟩
  | some mine =>
    have hgone : storedEntry
        (bumpVersion env (writeCompletions st ((storedCompletions st).del userId))) userId
        = none := by
      rw [storedEntry_cleared, get_del_same]
    obtain ⟨hids, hhas⟩ := no_entry_reads _ userId (by rfl) hkey hgone
    refine ⟨_, resetCompletions_of_some env st userId mine hc h, hids, hhas, ?_, rfl, rfl, ?_⟩
    · intro other hne
      rw [storedEntry_cleared, get_del_ne _ _ _ hne, storedEntry]
    · intro hempty hentry
      exfalso
      apply hentry
      congr 1
      rw [getCompletedIds_plain st userId hc hkey, storedIds, h] at hempty
      have hk : (Obj.keys mine).dedup = [] := by
        injection hempty
      have hk' : Obj.keys mine = [] := by
        cases hm : Obj.keys mine with
        | nil => rfl
        | cons a rest =>
          have : a ∈ (Obj.keys mine).dedup := List.mem_dedup.mpr (by rw [hm]; simp)
          rw [hk] at this
          cases this
      simpa [Obj.keys] using hk'

theorem resetCompletions_spec_witness :
    sampleStorage.completions.isObject = true ∧ plainKey "u-1" ∧
    ∃ st' : Storage, resetCompletions sampleEnv sampleStorage "u-1" = Outcome.returns () st' ∧
      getCompletedIds st' "u-1" = Outcome.returns [] st' ∧
      (∀ s : String, hasCompleted st' "u-1" s = some false) ∧
      (∀ other : String, other ≠ "u-1" → storedEntry st' other = storedEntry sampleStorage other) ∧
      st'.daily = sampleStorage.daily ∧ st'.user = sampleStorage.user ∧
      (getCompletedIds sampleStorage "u-1" = Outcome.returns [] sampleStorage →
        storedEntry sampleStorage "u-1" ≠ some [] → st' = sampleStorage) :=
  ⟨rfl, by decide, resetCompletions_spec sampleEnv sampleStorage "u-1" rfl (by decide)⟩

/-! ## C11 -/

/-- After a returning `markCompleted(userId, ...)` no daily mapping is stored for any other
user. -/
theorem storedDaily_marked_other (env : Env) (st : Storage) (userId other surveyId : String)
    (answers : Answers) (h : other ≠ userId) :
    storedDaily (markedStorage env st userId surveyId answers) other = [] := by
  simp [storedDaily, markedStorage_daily, Obj.get, Ne.symm h]

/-- After a returning `getRemainingSurveys(userId)` or a `canStartSurvey` that reaches the
quota check for `userId`, no daily mapping is stored for any other user. -/
theorem storedDaily_pruned_other (env : Env) (st : Storage) (userId other : String)
    (h : other ≠ userId) : storedDaily (prunedStorage env st userId) other = [] :=
  storedDaily_writeDaily_other _ _ _ _ h

/-- C11 fails on the code: in `sampleStorage` the current user is `u-1` and the user `u-2` has a
count of 9 for today. After `markCompleted("u-1", "s2", [])`, after `getRemainingSurveys("u-1")`
and after `canStartSurvey("s2")` the count read for `u-2` under today's date is 0. -/
theorem daily_counter_drops_other_users :
    (getUser sampleEnv sampleStorage).1.id = "u-1" ∧
    storedCount sampleStorage "u-2" sampleEnv.today = 9 ∧
    (markCompleted sampleEnv sampleStorage "u-1" "s2" []).storage.map
      (fun s => storedCount s "u-2" sampleEnv.today) = some 0 ∧
    (getRemainingSurveys sampleEnv sampleStorage "u-1").storage.map
      (fun s => storedCount s "u-2" sampleEnv.today) = some 0 ∧
    (canStartSurvey sampleEnv sampleStorage "s2").storage.map
      (fun s => storedCount s "u-2" sampleEnv.today) = some 0 := by
  decide

end Surveys
